import Mathlib

/-!
Verification of the golox tree-walking interpreter (scanner, parser,
evaluator) against its specification.

The Go sources are shallowly embedded: Go strings and byte slices become
lists of naturals (one per byte), Go structs become structures, Go nil
pointers become `Option.none`, and Go runtime panics (nil dereference,
index out of range) become the distinguished outcome `Res.panic`.
Recursive Go functions whose termination is not structural carry an
explicit fuel argument; exhausting it yields `Res.timeout`, an outcome
that never occurs for the fuel bounds used below.  Where the repository
contains two drafts of a file, the later draft (the one the other
components build against) is embedded: the error-returning `lex`, the
statement-producing `Parse`, and the `Node`-based evaluator.
-/

namespace Golox

/-- Go byte strings, one natural per byte. -/
abbrev Bytes := List Nat

/-- Bytes of an ASCII string literal. -/
def str (s : String) : Bytes := s.toList.map (fun c => c.toNat)

/-- Outcome of running embedded Go code: a normal result, a Go runtime
panic (nil-pointer dereference or index out of range), or fuel
exhaustion (never reached at the fuel bounds used in this file). -/
inductive Res (α : Type) where
  | panic
  | timeout
  | ok (a : α)
deriving Repr, DecidableEq

/-- TokenType of token.go: every operator, keyword and literal kind. -/
inductive TokenType where
  | LeftParen | RightParen | LeftBrace | RightBrace | Comma | Dot
  | Minus | Plus | Semicolon | Slash | Star
  | Bang | BangEqual | Equal | EqualEqual
  | Greater | GreaterEqual | Less | LessEqual
  | Identifier | String | Number
  | And | Class | Else | False | Fun | For | If | Nil | Or
  | Print | Return | Super | This | True | Var | While
  | EOF
deriving Repr, DecidableEq

/-- Token of token.go: kind, lexeme bytes, 1-based line number. -/
structure Tok where
  type : TokenType
  lexeme : Bytes
  line : Nat
deriving Repr, DecidableEq

/-- newToken of the scanner. -/
def newToken (ttype : TokenType) (value : Bytes) (line : Nat) : Tok :=
  ⟨ttype, value, line⟩

/-- The lexing error value built at the unexpected-character site
(its printf renders the line and the offending byte). -/
structure LexErr where
  line : Nat
  char : Nat
deriving Repr, DecidableEq

/-- isAlpha of the scanner. -/
def isAlpha (r : Nat) : Bool :=
  (decide (97 ≤ r) && decide (r ≤ 122)) || (decide (65 ≤ r) && decide (r ≤ 90))

/-- isDigit of the scanner. -/
def isDigit (r : Nat) : Bool :=
  decide (48 ≤ r) && decide (r ≤ 57)

/-- isAlphaNumeric of the scanner. -/
def isAlphaNumeric (r : Nat) : Bool :=
  isAlpha r || isDigit r

/-- The keywords map of the scanner. -/
def keywords : List (Bytes × TokenType) :=
  [(str (r"and"), .And), (str (r"class"), .Class), (str (r"else"), .Else),
   (str (r"false"), .False), (str (r"fun"), .Fun), (str (r"for"), .For),
   (str (r"if"), .If), (str (r"nil"), .Nil), (str (r"or"), .Or),
   (str (r"print"), .Print), (str (r"return"), .Return), (str (r"super"), .Super),
   (str (r"this"), .This), (str (r"true"), .True), (str (r"var"), .Var),
   (str (r"while"), .While)]

/-- Go map access `keywords[val]` as (value, present). -/
def keywordLookup (s : Bytes) : Option TokenType :=
  (keywords.find? (fun p => p.1 == s)).map (fun p => p.2)

/-- skipComment of the scanner: drop bytes through the next newline. -/
def skipComment : Bytes → Bytes
  | [] => []
  | c :: rest => if c = 10 then rest else skipComment rest

/-- findString of the scanner: consume up to the closing quote,
returning (tail after the string, content bytes, newlines crossed).
Running off the end of input returns the content with no error. -/
def findString : Bytes → Bytes → Nat → Bytes × Bytes × Nat
  | [], current, lines => ([], current, lines)
  | c :: rest, current, lines =>
    if c = 34 then (rest, current, lines)
    else if c = 10 then findString rest (current ++ [c]) (lines + 1)
    else findString rest (current ++ [c]) lines

/-- findNumber of the scanner (the later draft, with the corrected
conjunction).  The malformed-literal warning printed on a second dot is
a bare printf and is not modelled. -/
def findNumber : Bytes → Bytes → Bool → Bytes × Bytes × Bool
  | [], current, dotSeen => ([], current, dotSeen)
  | c :: rest, current, dotSeen =>
    if !isDigit c && c != 46 then (c :: rest, current, dotSeen)
    else if c == 46 && dotSeen then (rest, current, dotSeen)
    else if c == 46 && !dotSeen then findNumber rest (current ++ [c]) true
    else findNumber rest (current ++ [c]) dotSeen

/-- findIdentifier of the scanner. -/
def findIdentifier : Bytes → Bytes → Bytes × Bytes
  | [], current => ([], current)
  | c :: rest, current =>
    if !isAlphaNumeric c then (c :: rest, current)
    else findIdentifier rest (current ++ [c])

/-- lex, the tail-recursive scanner worker (the error-returning draft).
Each step consumes at least one byte, so fuel `length + 1` suffices.
`tail[1]` lookahead on a one-byte remainder is the Go out-of-range
panic, embedded as `Res.panic`. -/
def lex (fuel : Nat) (current : List Tok) (tail : Bytes) (line : Nat)
    (err : Option LexErr) : Res (List Tok × Option LexErr) :=
  match fuel with
  | 0 => .timeout
  | fuel + 1 =>
    match err with
    | some e => .ok (current, some e)
    | none =>
      match tail with
      | [] => .ok (current ++ [newToken .EOF [0] line], none)
      | r :: rest =>
        if r = 10 then lex fuel current rest (line + 1) none
        else if r = 9 then lex fuel current rest line none
        else if r = 13 then lex fuel current rest line none
        else if r = 32 then lex fuel current rest line none
        else if r = 40 then lex fuel (current ++ [newToken .LeftParen [r] line]) rest line none
        else if r = 41 then lex fuel (current ++ [newToken .RightParen [r] line]) rest line none
        else if r = 123 then lex fuel (current ++ [newToken .LeftBrace [r] line]) rest line none
        else if r = 125 then lex fuel (current ++ [newToken .RightBrace [r] line]) rest line none
        else if r = 44 then lex fuel (current ++ [newToken .Comma [r] line]) rest line none
        else if r = 46 then lex fuel (current ++ [newToken .Dot [r] line]) rest line none
        else if r = 45 then lex fuel (current ++ [newToken .Minus [r] line]) rest line none
        else if r = 43 then lex fuel (current ++ [newToken .Plus [r] line]) rest line none
        else if r = 59 then lex fuel (current ++ [newToken .Semicolon [r] line]) rest line none
        else if r = 42 then lex fuel (current ++ [newToken .Star [r] line]) rest line none
        else if r = 33 then
          match rest with
          | [] => .panic
          | c :: rest2 =>
            if c = 61 then lex fuel (current ++ [newToken .BangEqual (str (r"!=")) line]) rest2 line none
            else lex fuel (current ++ [newToken .Bang [r] line]) rest line none
        else if r = 61 then
          match rest with
          | [] => .panic
          | c :: rest2 =>
            if c = 61 then lex fuel (current ++ [newToken .EqualEqual (str (r"==")) line]) rest2 line none
            else lex fuel (current ++ [newToken .Equal [r] line]) rest line none
        else if r = 60 then
          match rest with
          | [] => .panic
          | c :: rest2 =>
            if c = 61 then lex fuel (current ++ [newToken .LessEqual (str (r"<=")) line]) rest2 line none
            else lex fuel (current ++ [newToken .Less [r] line]) rest line none
        else if r = 62 then
          match rest with
          | [] => .panic
          | c :: rest2 =>
            if c = 61 then lex fuel (current ++ [newToken .GreaterEqual (str (r">=")) line]) rest2 line none
            else lex fuel (current ++ [newToken .Greater [r] line]) rest line none
        else if r = 47 then
          match rest with
          | [] => .panic
          | c :: rest2 =>
            if c = 47 then lex fuel current (skipComment rest2) (line + 1) none
            else lex fuel (current ++ [newToken .Slash [r] line]) rest line none
        else if r = 34 then
          let p := findString rest [] 0
          lex fuel (current ++ [newToken .String p.2.1 line]) p.1 (line + p.2.2) none
        else if isDigit r then
          let p := findNumber rest [r] false
          lex fuel (current ++ [newToken .Number p.2.1 line]) p.1 line none
        else if isAlpha r then
          let p := findIdentifier rest [r]
          let kw := keywordLookup p.2
          if kw.isSome then lex fuel (current ++ [newToken (kw.getD .Identifier) p.2 line]) p.1 line none
          else lex fuel (current ++ [newToken .Identifier p.2 line]) p.1 line none
        else .ok (current, some ⟨line, r⟩)

/-- Lex, the wrapper of the scanner.  The fuel bound `length + 1` is
enough because every recursive call of `lex` strictly shortens `tail`. -/
def Lex (source : Bytes) : Res (List Tok × Option LexErr) :=
  lex (source.length + 1) [] source 1 none

end Golox

namespace Golox

/-- A byte the scanner has no case for: not whitespace, not the start of
an operator or comment, not a quote, digit or letter. -/
def isUnexpected (c : Nat) : Bool :=
  decide (c ∉ [10, 9, 13, 32, 40, 41, 123, 125, 44, 46, 45, 43, 59, 42,
      33, 61, 60, 62, 47, 34]) && !isDigit c && !isAlpha c

end Golox

/-! ### Values: byte buffers, the binary32 encoding, AST nodes -/

namespace Golox

/-- Value of stmt.go: every payload is a raw byte buffer. -/
abbrev Value := Bytes

/-- Unnormalised rationals for the binary32 value model: a numerator
and a positive denominator, never reduced (every operation keeps the
denominator positive).  All values produced by the evaluator are exact
binary rationals, so no normalisation is needed. -/
structure Q where
  num : Int
  den : Nat
deriving Repr, DecidableEq

def Q.ofNat (n : Nat) : Q := ⟨n, 1⟩

instance (n : Nat) : OfNat Q n := ⟨Q.ofNat n⟩

instance : Add Q := ⟨fun a b => ⟨a.num * b.den + b.num * a.den, a.den * b.den⟩⟩

instance : Sub Q := ⟨fun a b => ⟨a.num * b.den - b.num * a.den, a.den * b.den⟩⟩

instance : Mul Q := ⟨fun a b => ⟨a.num * b.num, a.den * b.den⟩⟩

/-- Reciprocal; the reciprocal of zero is zero (the Go division by zero
follows IEEE-754 instead and is exercised by no claim). -/
def Q.inv (a : Q) : Q :=
  if a.num = 0 then ⟨0, 1⟩
  else if a.num < 0 then ⟨-(a.den : Int), a.num.natAbs⟩
  else ⟨(a.den : Int), a.num.natAbs⟩

instance : Div Q := ⟨fun a b => a * b.inv⟩

instance : Neg Q := ⟨fun a => ⟨-a.num, a.den⟩⟩

def Q.abs (a : Q) : Q := ⟨a.num.natAbs, a.den⟩

instance : LT Q := ⟨fun a b => a.num * b.den < b.num * a.den⟩

instance : LE Q := ⟨fun a b => a.num * b.den ≤ b.num * a.den⟩

instance (a b : Q) : Decidable (a < b) := Int.decLt _ _

instance (a b : Q) : Decidable (a ≤ b) := Int.decLe _ _

/-- Floor of a rational. -/
def Q.floor (a : Q) : Int := a.num.fdiv a.den

/-- Floor of log2 on naturals (0 for 0 and 1). -/
def log2fl (fuel n : Nat) : Nat :=
  match fuel with
  | 0 => 0
  | fuel + 1 => if 2 ≤ n then log2fl fuel (n / 2) + 1 else 0

/-- 2 to an integer power, as a rational. -/
def pow2Z (e : Int) : Q :=
  if 0 ≤ e then ⟨(2 : Int) ^ e.toNat, 1⟩ else ⟨1, 2 ^ (-e).toNat⟩

/-- Exact rational value of a binary32 bit pattern.  The infinity and
NaN patterns (exponent field 255), which no execution in this file
reaches, are mapped to 0. -/
def ratOfF32bits (u : Nat) : Q :=
  let s : Nat := u / 2 ^ 31 % 2
  let ex : Nat := u / 2 ^ 23 % 2 ^ 8
  let m : Nat := u % 2 ^ 23
  let mag : Q :=
    if ex = 0 then ⟨m, 2 ^ 149⟩
    else if ex = 255 then 0
    else if 150 ≤ ex then ⟨(2 ^ 23 + m) * 2 ^ (ex - 150), 1⟩
    else ⟨2 ^ 23 + m, 2 ^ (150 - ex)⟩
  if s = 1 then -mag else mag

/-- Greatest e with 2 ^ e ≤ q, for positive rational q. -/
def ilog2 (q : Q) : Int :=
  let e0 : Int := (log2fl q.num.natAbs q.num.natAbs : Int) - (log2fl q.den q.den : Int)
  if pow2Z (e0 + 1) ≤ q then e0 + 1
  else if pow2Z e0 ≤ q then e0
  else e0 - 1

/-- Round to the nearest integer, ties to even. -/
def rne (q : Q) : Int :=
  let f := q.floor
  if q - ⟨f, 1⟩ < ⟨1, 2⟩ then f
  else if (⟨1, 2⟩ : Q) < q - ⟨f, 1⟩ then f + 1
  else if f % 2 = 0 then f
  else f + 1

/-- math.Float32bits composed with rounding: the bit pattern of the
binary32 value nearest to q (ties to even).  Values beyond the finite
range clamp to the largest finite pattern; no execution in this file
produces such a value. -/
def f32bitsOfRat (q : Q) : Nat :=
  if q.num = 0 then 0
  else
    let s : Nat := if q.num < 0 then 2 ^ 31 else 0
    let a := q.abs
    let e := ilog2 a
    if 127 < e then s + 0x7F7FFFFF
    else if e < -126 then
      s + (rne (a * pow2Z 149)).toNat
    else
      let m := (rne (a * pow2Z (23 - e))).toNat
      if 2 ^ 24 ≤ m then
        if e = 127 then s + 0x7F7FFFFF
        else s + (e + 128).toNat * 2 ^ 23
      else s + (e + 127).toNat * 2 ^ 23 + (m - 2 ^ 23)

/-- One float32 operation: exact rational arithmetic followed by
binary32 rounding. -/
def round32 (q : Q) : Q := ratOfF32bits (f32bitsOfRat q)

/-- encodeLoxNumber of stmt.go: the four big-endian bytes of the
binary32 bit pattern. -/
def encodeLoxNumber (n : Q) : Value :=
  let f := f32bitsOfRat n
  [f / 2 ^ 24 % 256, f / 2 ^ 16 % 256, f / 2 ^ 8 % 256, f % 256]

/-- decodeLoxNumber of stmt.go reads v[0] through v[3]; on a shorter
buffer Go panics with an index out of range, modelled as `none`. -/
def decodeLoxNumber (v : Value) : Option Q :=
  match v with
  | b0 :: b1 :: b2 :: b3 :: _ =>
    some (ratOfF32bits (b0 % 256 * 2 ^ 24 + b1 % 256 * 2 ^ 16 + b2 % 256 * 2 ^ 8 + b3 % 256))
  | _ => none

/-- encodeLoxNumberFromString of stmt.go: the digit-accumulation loop,
with each Go float32 operation modelled by `round32`.  The byte
subtraction of the zero digit wraps modulo 256 exactly as in Go. -/
def encodeLoxNumberFromString (s : Bytes) : Value :=
  let p := s.foldl
    (fun (acc : Q × Q) c =>
      if c = 46 then (acc.1, 10)
      else if acc.2.num = 0 then
        (round32 (round32 (acc.1 * 10) + Q.ofNat ((c + 256 - 48) % 256)), acc.2)
      else
        (round32 (acc.1 + round32 (Q.ofNat ((c + 256 - 48) % 256) / acc.2)),
          round32 (acc.2 * 10)))
    (0, 0)
  encodeLoxNumber p.1

/-- encodeBool of stmt.go. -/
def encodeBool (b : Bool) : Value := if b then [1] else [0]

/-- encodeString of stmt.go. -/
def encodeString (s : Bytes) : Value := s

/-- compareValues of stmt.go: a length check followed by a bytewise
comparison, i.e. list equality. -/
def compareValues (a b : Value) : Bool := a == b

/-- NodeType of stmt.go. -/
inductive NodeType where
  | ProgramNT | DeclarationNT | VarDeclNT | FunDeclNT | FunctionNT
  | StmtNT | BlockNT | ReturnStmtNT | ExprStmtNT | PrintStmtNT
  | WhileStmtNT | IfStmtNT | AssignmentNT | LogicOrNT | LogicAndNT
  | EqualityNT | ComparisonNT | TermNT | FactorNT | UnaryNT
  | ArgNT | ParamNT | CallNT | CallableNT | IdentifierNT
  | NumberNT | StringNT | BoolNT | GroupNT | NilNT | EOFNT
deriving Repr, DecidableEq

/-- Node of stmt.go, a possibly-nil pointer to a node struct with
fields in the order (Type, Data, Left, Right, Third, Next): `null` is
the Go nil pointer, and dereferencing it panics.  The zero value of the
Data slice is the empty list. -/
inductive Node where
  | null
  | mk (type : NodeType) (data : Value) (left : Node)
      (right : Node) (third : Node) (next : Node)
deriving Repr, DecidableEq

/-- The field read n.Type, where the source has established n is not nil. -/
def Node.typeOf : Node → Option NodeType
  | .null => none
  | .mk t _ _ _ _ _ => some t

def Node.dataOf : Node → Option Value
  | .null => none
  | .mk _ d _ _ _ _ => some d

def Node.leftOf : Node → Option Node
  | .null => none
  | .mk _ _ l _ _ _ => some l

def Node.rightOf : Node → Option Node
  | .null => none
  | .mk _ _ _ r _ _ => some r

def Node.thirdOf : Node → Option Node
  | .null => none
  | .mk _ _ _ _ th _ => some th

def Node.nextOf : Node → Option Node
  | .null => none
  | .mk _ _ _ _ _ nx => some nx

/-- The Go field assignment `n.Next = x` as a functional update of a
non-nil node; assigning through a nil pointer is a panic, modelled as
`none`. -/
def Node.withNext : Node → Node → Option Node
  | .null, _ => none
  | .mk t d l r th _, nx => some (.mk t d l r th nx)

/-- Length of a `Next`-linked chain (the arity count of the parser). -/
def chainLength : Node → Nat
  | .null => 0
  | .mk _ _ _ _ _ nx => chainLength nx + 1

/-- Link a list of non-nil nodes into a `Next`-chain, as the Go parser
loops do by mutating the `Next` field of the previously parsed node. -/
def chainOf : List Node → Node
  | [] => .null
  | s :: rest =>
    match s.withNext (chainOf rest) with
    | some n => n
    | none => .null

/-- toValue of stmt.go. -/
def Tok.toValue (t : Tok) : Value :=
  match t.type with
  | .Number => encodeLoxNumberFromString t.lexeme
  | .String => t.lexeme
  | .True => [1]
  | .False => [0]
  | _ => t.lexeme

end Golox

/-! ### Parser: a faithful embedding of Parse of parser.go.

Each closure of the Go `Parse` becomes a function over the token list
and a cursor.  Fuel is threaded through every call (the Go recursion
terminates on all real inputs but not structurally); reading a token
index out of range is `Res.panic` exactly where Go would panic.  The
formatted error messages are not modelled beyond the line number they
carry. -/

namespace Golox

/-- A parsing error value; the Go message carries the line shown here.
The one arity-overflow message in finishCall has no line and is
reported as line 0. -/
structure PErr where
  line : Nat
deriving Repr, DecidableEq

/-- Result of a production: the Go (node, err) pair plus the cursor. -/
abbrev PR := Res (Node × Option PErr × Nat)

def Res.bind : Res α → (α → Res β) → Res β
  | .panic, _ => .panic
  | .timeout, _ => .timeout
  | .ok a, k => k a

/-- The parser closure `match`: if the cursor is in range and the token
kind is one of the given kinds, consume it. -/
def pmatch (toks : List Tok) (cur : Nat) (types : List TokenType) : Bool × Nat :=
  match toks.get? cur with
  | none => (false, cur)
  | some t => if t.type ∈ types then (true, cur + 1) else (false, cur)

/-- The parser closure `previous`: tokens[current-1]; out of range
(including the Go index -1 at cursor 0) is a panic, returned as none. -/
def previous (toks : List Tok) (cur : Nat) : Option Tok :=
  if cur = 0 then none else toks.get? (cur - 1)

/-- A Go `return nil, fmt.Errorf(... tokens[current].Line ...)` site:
reading tokens[current] out of range is a panic. -/
def errAt (toks : List Tok) (cur : Nat) : PR :=
  match toks.get? cur with
  | none => .panic
  | some t => .ok (.null, some ⟨t.line⟩, cur)


/-- Evaluate one `match(...)` call of the parser and pass its (matched,
cursor) result on; keeps each cursor computed once, as in Go. -/
def mbind {α : Type} (p : Bool × Nat) (k : Bool → Nat → α) : α :=
  match p with
  | (m, c) => k m c

set_option maxHeartbeats 3200000 in
mutual

/-- program of parser.go. -/
def program (fuel : Nat) (toks : List Tok) (cur : Nat) : PR :=
  match fuel with
  | 0 => .timeout
  | fuel + 1 =>
    (declaration fuel toks cur).bind fun (stmt, err, cur1) =>
      (programLoop fuel toks cur1 []).bind fun (decls, errLoop, cur2) =>
        let right : Node :=
          match stmt with
          | .null => .null
          | s => chainOf (s :: decls)
        match errLoop with
        | some e => .ok (.mk .ProgramNT [] .null right .null .null, some e, cur2)
        | none => .ok (.mk .ProgramNT [] .null right .null .null, err, cur2)

/-- The declaration loop of program(): collects the statements linked
onto the first one by the Go `stmt.Next = decl` mutations.  (A nil
declaration always comes with an error, so the chain never breaks.) -/
def programLoop (fuel : Nat) (toks : List Tok) (cur : Nat) (acc : List Node) :
    Res (List Node × Option PErr × Nat) :=
  match fuel with
  | 0 => .timeout
  | fuel + 1 =>
    if cur < toks.length then
      mbind (pmatch toks cur [.EOF]) fun pm pc =>
      if pm then .ok (acc, none, pc)
      else
        (declaration fuel toks pc).bind fun (decl, err, cur2) =>
          match err with
          | some e => .ok (acc, some e, cur2)
          | none =>
            match decl with
            | .null => programLoop fuel toks cur2 acc
            | d => programLoop fuel toks cur2 (acc ++ [d])
    else .ok (acc, none, cur)
termination_by structural fuel

/-- declaration of parser.go. -/
def declaration (fuel : Nat) (toks : List Tok) (cur : Nat) : PR :=
  match fuel with
  | 0 => .timeout
  | fuel + 1 =>
    mbind (pmatch toks cur [.Var]) fun pm pc =>
    if pm then varDecl fuel toks pc
    else
      mbind (pmatch toks pc [.Fun]) fun qm qc =>
      if qm then funDecl fuel toks qc
      else statement fuel toks qc
termination_by structural fuel

/-- funDecl of parser.go. -/
def funDecl (fuel : Nat) (toks : List Tok) (cur : Nat) : PR :=
  match fuel with
  | 0 => .timeout
  | fuel + 1 => function fuel toks cur
termination_by structural fuel

/-- function of parser.go. -/
def function (fuel : Nat) (toks : List Tok) (cur : Nat) : PR :=
  match fuel with
  | 0 => .timeout
  | fuel + 1 =>
    mbind (pmatch toks cur [.Identifier]) fun pm pc =>
    if pm then
      match previous toks pc with
      | none => .panic
      | some name =>
        mbind (pmatch toks pc [.LeftParen]) fun qm qc =>
        if qm then
          (parameters fuel toks qc).bind fun (param, errp, cur2) =>
            match errp with
            | some e => .ok (.null, some e, cur2)
            | none =>
              let arity := chainLength param
              if 255 ≤ arity then .ok (.null, some ⟨name.line⟩, cur2)
              else
                mbind (pmatch toks cur2 [.RightParen]) fun rpm rpc =>
                if !rpm then .ok (.null, some ⟨name.line⟩, rpc)
                else
                  mbind (pmatch toks rpc [.LeftBrace]) fun lbm lbc =>
                  if lbm then
                    (block fuel toks lbc).bind fun (body, errb, cur3) =>
                      match errb with
                      | some e => .ok (.null, some e, cur3)
                      | none =>
                        .ok (.mk .FunDeclNT (encodeLoxNumber (Q.ofNat arity))
                          (.mk .IdentifierNT (encodeString name.lexeme) .null .null .null .null)
                          param body .null, none, cur3)
                  else .ok (.null, some ⟨name.line⟩, lbc)
        else .ok (.null, some ⟨name.line⟩, qc)
    else
      match previous toks pc with
      | none => .panic
      | some prevTok => .ok (.null, some ⟨prevTok.line⟩, pc)
termination_by structural fuel

/-- parameters of parser.go. -/
def parameters (fuel : Nat) (toks : List Tok) (cur : Nat) : PR :=
  match fuel with
  | 0 => .timeout
  | fuel + 1 =>
    mbind (pmatch toks cur [.Identifier]) fun pm pc =>
    if pm then
      match previous toks pc with
      | none => .panic
      | some t =>
        (paramsLoop fuel toks pc []).bind fun (names, cur2) =>
          .ok (chainOf
            ((Node.mk .ParamNT (encodeString t.lexeme) .null .null .null .null) ::
              names.map (fun s => Node.mk .ParamNT (encodeString s) .null .null .null .null)),
            none, cur2)
    else .ok (.null, none, pc)

/-- The comma loop of parameters(): note the Go `match(Comma) &&
match(Identifier)` consumes the comma even when no identifier follows. -/
def paramsLoop (fuel : Nat) (toks : List Tok) (cur : Nat) (acc : List Bytes) :
    Res (List Bytes × Nat) :=
  match fuel with
  | 0 => .timeout
  | fuel + 1 =>
    mbind (pmatch toks cur [.Comma]) fun pm pc =>
    if pm then
      mbind (pmatch toks pc [.Identifier]) fun qm qc =>
      if qm then
        match previous toks qc with
        | none => .panic
        | some t => paramsLoop fuel toks qc (acc ++ [t.lexeme])
      else .ok (acc, qc)
    else .ok (acc, pc)
termination_by structural fuel

/-- varDecl of parser.go.  With no `=` the initializer stays the nil
pointer and the error of the preceding primary() is kept; with `=` the
error variable is overwritten by the one from expression(). -/
def varDecl (fuel : Nat) (toks : List Tok) (cur : Nat) : PR :=
  match fuel with
  | 0 => .timeout
  | fuel + 1 =>
    (primary fuel toks cur).bind fun (ident, err0, cur1) =>
      mbind (pmatch toks cur1 [.Equal]) fun pm pc =>
      (if pm then expression fuel toks pc else .ok (.null, err0, pc)).bind
        fun (expr, err, cur2) =>
          mbind (pmatch toks cur2 [.Semicolon]) fun qm qc =>
          if qm then .ok (.mk .VarDeclNT [] ident expr .null .null, err, qc)
          else errAt toks qc

/-- statement of parser.go. -/
def statement (fuel : Nat) (toks : List Tok) (cur : Nat) : PR :=
  match fuel with
  | 0 => .timeout
  | fuel + 1 =>
    mbind (pmatch toks cur [.Print]) fun p1m p1c =>
    if p1m then printStmt fuel toks p1c
    else
      mbind (pmatch toks p1c [.If]) fun p2m p2c =>
      if p2m then ifStmt fuel toks p2c
      else
        mbind (pmatch toks p2c [.While]) fun p3m p3c =>
        if p3m then whileStmt fuel toks p3c
        else
          mbind (pmatch toks p3c [.For]) fun p4m p4c =>
          if p4m then forStmt fuel toks p4c
          else
            mbind (pmatch toks p4c [.LeftBrace]) fun p5m p5c =>
            if p5m then block fuel toks p5c
            else
              mbind (pmatch toks p5c [.Return]) fun p6m p6c =>
              if p6m then returnStmt fuel toks p6c
              else exprStmt fuel toks p6c
termination_by structural fuel

/-- block of parser.go. -/
def block (fuel : Nat) (toks : List Tok) (cur : Nat) : PR :=
  match fuel with
  | 0 => .timeout
  | fuel + 1 =>
    (blockLoop fuel toks cur []).bind fun (decls, err, cur2) =>
      match err with
      | some e => .ok (.null, some e, cur2)
      | none =>
        match previous toks cur2 with
        | none => .panic
        | some t =>
          if t.type = .RightBrace then
            .ok (.mk .BlockNT [] .null (chainOf decls) .null .null, none, cur2)
          else errAt toks cur2
termination_by structural fuel

/-- The declaration loop of block(), analogous to programLoop. -/
def blockLoop (fuel : Nat) (toks : List Tok) (cur : Nat) (acc : List Node) :
    Res (List Node × Option PErr × Nat) :=
  match fuel with
  | 0 => .timeout
  | fuel + 1 =>
    mbind (pmatch toks cur [.RightBrace]) fun pm pc =>
    if pm then .ok (acc, none, pc)
    else
      (declaration fuel toks pc).bind fun (decl, err, cur2) =>
        match err with
        | some e => .ok (acc, some e, cur2)
        | none =>
          match decl with
          | .null => blockLoop fuel toks cur2 acc
          | d => blockLoop fuel toks cur2 (acc ++ [d])
termination_by structural fuel

/-- returnStmt of parser.go. -/
def returnStmt (fuel : Nat) (toks : List Tok) (cur : Nat) : PR :=
  match fuel with
  | 0 => .timeout
  | fuel + 1 =>
    (expression fuel toks cur).bind fun (expr, err, cur1) =>
      match err with
      | some e => .ok (.null, some e, cur1)
      | none =>
        mbind (pmatch toks cur1 [.Semicolon]) fun pm pc =>
        if pm then .ok (.mk .ReturnStmtNT [] .null expr .null .null, none, pc)
        else errAt toks pc

/-- forStmt of parser.go, including the parse-time desugaring into
`Block(init, While(cond, Block(body -> incr)))`. -/
def forStmt (fuel : Nat) (toks : List Tok) (cur : Nat) : PR :=
  match fuel with
  | 0 => .timeout
  | fuel + 1 =>
    mbind (pmatch toks cur [.LeftParen]) fun lpm lpc =>
    if !lpm then errAt toks lpc
    else
      (let ms := pmatch toks lpc [.Semicolon]
       if ms.1 then Res.ok (Node.null, (none : Option PErr), ms.2)
       else
         mbind (pmatch toks ms.2 [.Var]) fun mvm mvc =>
         if mvm then varDecl fuel toks mvc
         else exprStmt fuel toks mvc).bind fun (ini, err1, c1) =>
        match err1 with
        | some e => .ok (.null, some e, c1)
        | none =>
          (expression fuel toks c1).bind fun (cond, err2, c2) =>
            match err2 with
            | some e => .ok (.null, some e, c2)
            | none =>
              mbind (pmatch toks c2 [.Semicolon]) fun scm scc =>
              if !scm then errAt toks scc
              else
                (expression fuel toks scc).bind fun (incr, err3, c3) =>
                  match err3 with
                  | some e => .ok (.null, some e, c3)
                  | none =>
                    mbind (pmatch toks c3 [.RightParen]) fun rpm rpc =>
                    if !rpm then errAt toks rpc
                    else
                      (statement fuel toks rpc).bind fun (body, err4, c4) =>
                        match err4 with
                        | some e => .ok (.null, some e, c4)
                        | none =>
                          if ini = .null ∧ cond = .null ∧ incr = .null ∧ body = .null then
                            errAt toks c4
                          else
                            match body.withNext incr with
                            | none => .panic
                            | some b2 =>
                              let bodyWithIncr := Node.mk .BlockNT [] .null b2 .null .null
                              let whileLeft :=
                                if cond = .null then
                                  Node.mk .BoolNT (encodeBool true) .null .null .null .null
                                else cond
                              let whileN :=
                                Node.mk .WhileStmtNT [] whileLeft bodyWithIncr .null .null
                              match ini with
                              | .null => .ok (.mk .BlockNT [] .null whileN .null .null, none, c4)
                              | i =>
                                match i.withNext whileN with
                                | none => .panic
                                | some i2 =>
                                  .ok (.mk .BlockNT [] .null i2 .null .null, none, c4)
termination_by structural fuel

/-- whileStmt of parser.go. -/
def whileStmt (fuel : Nat) (toks : List Tok) (cur : Nat) : PR :=
  match fuel with
  | 0 => .timeout
  | fuel + 1 =>
    mbind (pmatch toks cur [.LeftParen]) fun lpm lpc =>
    if lpm then
      (expression fuel toks lpc).bind fun (cond, err, c1) =>
        match err with
        | some e => .ok (.null, some e, c1)
        | none =>
          mbind (pmatch toks c1 [.RightParen]) fun rpm rpc =>
          (if rpm then statement fuel toks rpc
           else Res.ok (Node.null, (none : Option PErr), rpc)).bind fun (body, err2, c2) =>
            match err2 with
            | some e => .ok (.null, some e, c2)
            | none =>
              if cond ≠ .null ∧ body ≠ .null then
                .ok (.mk .WhileStmtNT [] cond body .null .null, none, c2)
              else errAt toks c2
    else errAt toks lpc
termination_by structural fuel

/-- ifStmt of parser.go. -/
def ifStmt (fuel : Nat) (toks : List Tok) (cur : Nat) : PR :=
  match fuel with
  | 0 => .timeout
  | fuel + 1 =>
    mbind (pmatch toks cur [.LeftParen]) fun lpm lpc =>
    if lpm then
      (expression fuel toks lpc).bind fun (cond, err, c1) =>
        match err with
        | some e => .ok (.null, some e, c1)
        | none =>
          mbind (pmatch toks c1 [.RightParen]) fun rpm rpc =>
          (if rpm then statement fuel toks rpc
           else Res.ok (Node.null, (none : Option PErr), rpc)).bind fun (thenB, err2, c2) =>
            match err2 with
            | some e => .ok (.null, some e, c2)
            | none =>
              mbind (pmatch toks c2 [.Else]) fun mem mec =>
              (if mem then statement fuel toks mec
               else Res.ok (Node.null, (none : Option PErr), mec)).bind fun (elseB, err3, c3) =>
                match err3 with
                | some e => .ok (.null, some e, c3)
                | none =>
                  if cond ≠ .null ∧ thenB ≠ .null then
                    .ok (.mk .IfStmtNT [] cond thenB
                      (if elseB ≠ .null then elseB else .null) .null, none, c3)
                  else errAt toks c3
    else errAt toks lpc
termination_by structural fuel

/-- exprStmt of parser.go. -/
def exprStmt (fuel : Nat) (toks : List Tok) (cur : Nat) : PR :=
  match fuel with
  | 0 => .timeout
  | fuel + 1 =>
    (expression fuel toks cur).bind fun (expr, err, cur1) =>
      mbind (pmatch toks cur1 [.Semicolon]) fun pm pc =>
      if pm then .ok (.mk .ExprStmtNT [] .null expr .null .null, err, pc)
      else errAt toks pc

/-- printStmt of parser.go. -/
def printStmt (fuel : Nat) (toks : List Tok) (cur : Nat) : PR :=
  match fuel with
  | 0 => .timeout
  | fuel + 1 =>
    (expression fuel toks cur).bind fun (expr, err, cur1) =>
      mbind (pmatch toks cur1 [.Semicolon]) fun pm pc =>
      if pm then .ok (.mk .PrintStmtNT [] .null expr .null .null, err, pc)
      else errAt toks pc

/-- expression of parser.go. -/
def expression (fuel : Nat) (toks : List Tok) (cur : Nat) : PR :=
  match fuel with
  | 0 => .timeout
  | fuel + 1 => assignment fuel toks cur
termination_by structural fuel

/-- assignment of parser.go: right-associative by recursing into
itself; a non-identifier left side lets the parsed right side drop and
returns the left expression alone. -/
def assignment (fuel : Nat) (toks : List Tok) (cur : Nat) : PR :=
  match fuel with
  | 0 => .timeout
  | fuel + 1 =>
    (logicOr fuel toks cur).bind fun (expr, err, c1) =>
      mbind (pmatch toks c1 [.Equal]) fun pm pc =>
      if pm then
        match previous toks pc with
        | none => .panic
        | some op =>
          (assignment fuel toks pc).bind fun (right, err2, c2) =>
            match err2 with
            | some _ => errAt toks c2
            | none =>
              match expr with
              | .null => .panic
              | e =>
                if e.typeOf = some .IdentifierNT then
                  .ok (.mk .AssignmentNT op.toValue e right .null .null, none, c2)
                else .ok (expr, err, c2)
      else .ok (expr, err, pc)
termination_by structural fuel

/-- logicOr of parser.go. -/
def logicOr (fuel : Nat) (toks : List Tok) (cur : Nat) : PR :=
  match fuel with
  | 0 => .timeout
  | fuel + 1 =>
    (logicAnd fuel toks cur).bind fun (expr, err, c1) =>
      (logicOrLoop fuel toks expr c1).bind fun (e2, c2) => .ok (e2, err, c2)
termination_by structural fuel

def logicOrLoop (fuel : Nat) (toks : List Tok) (expr : Node) (cur : Nat) :
    Res (Node × Nat) :=
  match fuel with
  | 0 => .timeout
  | fuel + 1 =>
    mbind (pmatch toks cur [.Or]) fun pm pc =>
    if pm then
      match previous toks pc with
      | none => .panic
      | some op =>
        (logicAnd fuel toks pc).bind fun (right, err2, c2) =>
          match err2 with
          | some _ => .ok (expr, c2)
          | none => logicOrLoop fuel toks (.mk .LogicOrNT op.toValue expr right .null .null) c2
    else .ok (expr, pc)
termination_by structural fuel

/-- logicAnd of parser.go. -/
def logicAnd (fuel : Nat) (toks : List Tok) (cur : Nat) : PR :=
  match fuel with
  | 0 => .timeout
  | fuel + 1 =>
    (equality fuel toks cur).bind fun (expr, err, c1) =>
      (logicAndLoop fuel toks expr c1).bind fun (e2, c2) => .ok (e2, err, c2)
termination_by structural fuel

def logicAndLoop (fuel : Nat) (toks : List Tok) (expr : Node) (cur : Nat) :
    Res (Node × Nat) :=
  match fuel with
  | 0 => .timeout
  | fuel + 1 =>
    mbind (pmatch toks cur [.And]) fun pm pc =>
    if pm then
      match previous toks pc with
      | none => .panic
      | some op =>
        (equality fuel toks pc).bind fun (right, err2, c2) =>
          match err2 with
          | some _ => .ok (expr, c2)
          | none => logicAndLoop fuel toks (.mk .LogicAndNT op.toValue expr right .null .null) c2
    else .ok (expr, pc)
termination_by structural fuel

/-- equality of parser.go. -/
def equality (fuel : Nat) (toks : List Tok) (cur : Nat) : PR :=
  match fuel with
  | 0 => .timeout
  | fuel + 1 =>
    (comparison fuel toks cur).bind fun (expr, err, c1) =>
      (equalityLoop fuel toks expr c1).bind fun (e2, c2) => .ok (e2, err, c2)
termination_by structural fuel

def equalityLoop (fuel : Nat) (toks : List Tok) (expr : Node) (cur : Nat) :
    Res (Node × Nat) :=
  match fuel with
  | 0 => .timeout
  | fuel + 1 =>
    mbind (pmatch toks cur [.BangEqual, .EqualEqual]) fun pm pc =>
    if pm then
      match previous toks pc with
      | none => .panic
      | some op =>
        (comparison fuel toks pc).bind fun (right, err2, c2) =>
          match err2 with
          | some _ => .ok (expr, c2)
          | none => equalityLoop fuel toks (.mk .EqualityNT op.toValue expr right .null .null) c2
    else .ok (expr, pc)
termination_by structural fuel

/-- comparison of parser.go. -/
def comparison (fuel : Nat) (toks : List Tok) (cur : Nat) : PR :=
  match fuel with
  | 0 => .timeout
  | fuel + 1 =>
    (term fuel toks cur).bind fun (expr, err, c1) =>
      (comparisonLoop fuel toks expr c1).bind fun (e2, c2) => .ok (e2, err, c2)
termination_by structural fuel

def comparisonLoop (fuel : Nat) (toks : List Tok) (expr : Node) (cur : Nat) :
    Res (Node × Nat) :=
  match fuel with
  | 0 => .timeout
  | fuel + 1 =>
    mbind (pmatch toks cur [.Greater, .GreaterEqual, .Less, .LessEqual]) fun pm pc =>
    if pm then
      match previous toks pc with
      | none => .panic
      | some op =>
        (term fuel toks pc).bind fun (right, err2, c2) =>
          match err2 with
          | some _ => .ok (expr, c2)
          | none => comparisonLoop fuel toks (.mk .ComparisonNT op.toValue expr right .null .null) c2
    else .ok (expr, pc)
termination_by structural fuel

/-- term of parser.go: the left-associative fold for `-` and `+`. -/
def term (fuel : Nat) (toks : List Tok) (cur : Nat) : PR :=
  match fuel with
  | 0 => .timeout
  | fuel + 1 =>
    (factor fuel toks cur).bind fun (expr, err, c1) =>
      (termLoop fuel toks expr c1).bind fun (e2, c2) => .ok (e2, err, c2)
termination_by structural fuel

def termLoop (fuel : Nat) (toks : List Tok) (expr : Node) (cur : Nat) :
    Res (Node × Nat) :=
  match fuel with
  | 0 => .timeout
  | fuel + 1 =>
    mbind (pmatch toks cur [.Minus, .Plus]) fun pm pc =>
    if pm then
      match previous toks pc with
      | none => .panic
      | some op =>
        (factor fuel toks pc).bind fun (right, err2, c2) =>
          match err2 with
          | some _ => .ok (expr, c2)
          | none => termLoop fuel toks (.mk .TermNT op.toValue expr right .null .null) c2
    else .ok (expr, pc)
termination_by structural fuel

/-- factor of parser.go. -/
def factor (fuel : Nat) (toks : List Tok) (cur : Nat) : PR :=
  match fuel with
  | 0 => .timeout
  | fuel + 1 =>
    (unary fuel toks cur).bind fun (expr, err, c1) =>
      (factorLoop fuel toks expr c1).bind fun (e2, c2) => .ok (e2, err, c2)
termination_by structural fuel

def factorLoop (fuel : Nat) (toks : List Tok) (expr : Node) (cur : Nat) :
    Res (Node × Nat) :=
  match fuel with
  | 0 => .timeout
  | fuel + 1 =>
    mbind (pmatch toks cur [.Slash, .Star]) fun pm pc =>
    if pm then
      match previous toks pc with
      | none => .panic
      | some op =>
        (unary fuel toks pc).bind fun (right, err2, c2) =>
          match err2 with
          | some _ => .ok (expr, c2)
          | none => factorLoop fuel toks (.mk .FactorNT op.toValue expr right .null .null) c2
    else .ok (expr, pc)
termination_by structural fuel

/-- unary of parser.go. -/
def unary (fuel : Nat) (toks : List Tok) (cur : Nat) : PR :=
  match fuel with
  | 0 => .timeout
  | fuel + 1 =>
    mbind (pmatch toks cur [.Bang, .Minus]) fun pm pc =>
    if pm then
      match previous toks pc with
      | none => .panic
      | some op =>
        (unary fuel toks pc).bind fun (right, err, c2) =>
          .ok (.mk .UnaryNT op.toValue .null right .null .null, err, c2)
    else call fuel toks pc
termination_by structural fuel

/-- call of parser.go. -/
def call (fuel : Nat) (toks : List Tok) (cur : Nat) : PR :=
  match fuel with
  | 0 => .timeout
  | fuel + 1 =>
    (primary fuel toks cur).bind fun (expr, err, c1) =>
      (callLoop fuel toks expr c1).bind fun (e2, errLoop, c2) =>
        match errLoop with
        | some e => .ok (.null, some e, c2)
        | none => .ok (e2, err, c2)
termination_by structural fuel

/-- The invocation loop of call(): each iteration wraps the callee in a
CallNT node carrying the argument chain and arity. -/
def callLoop (fuel : Nat) (toks : List Tok) (expr : Node) (cur : Nat) :
    Res (Node × Option PErr × Nat) :=
  match fuel with
  | 0 => .timeout
  | fuel + 1 =>
    mbind (pmatch toks cur [.LeftParen]) fun pm pc =>
    if pm then
      (finishCall fuel toks pc).bind fun (arg, arity, errc, c2) =>
        match errc with
        | some e => .ok (.null, some e, c2)
        | none =>
          let expr2 := Node.mk .CallNT (encodeLoxNumber (Q.ofNat arity)) expr arg .null .null
          mbind (pmatch toks c2 [.RightParen]) fun qm qc =>
          if qm then callLoop fuel toks expr2 qc
          else
            match previous toks qc with
            | none => .panic
            | some t => .ok (.null, some ⟨t.line⟩, qc)
    else .ok (expr, none, pc)
termination_by structural fuel

/-- finishCall of parser.go: parses the argument list, counting arity;
at 255 or more arguments reports the no-line overflow error. -/
def finishCall (fuel : Nat) (toks : List Tok) (cur : Nat) :
    Res (Node × Nat × Option PErr × Nat) :=
  match fuel with
  | 0 => .timeout
  | fuel + 1 =>
    (expression fuel toks cur).bind fun (first, err, c1) =>
      match err with
      | some e => .ok (.null, 0, some e, c1)
      | none =>
        let count0 : Nat := if first = .null then 0 else 1
        (finishCallLoop fuel toks c1 count0 []).bind fun (args, count, err2, c2) =>
          match err2 with
          | some e => .ok (.null, count, some e, c2)
          | none =>
            if 255 ≤ count then .ok (.null, count, some ⟨0⟩, c2)
            else
              match first with
              | .null => .ok (.null, count, none, c2)
              | f =>
                match f.withNext (chainOf args) with
                | none => .ok (.null, count, none, c2)
                | some f2 => .ok (f2, count, none, c2)
termination_by structural fuel

/-- The comma loop of finishCall(): collects the later arguments that
the Go code links onto the first via Next.  (A nil argument always
comes with an error.) -/
def finishCallLoop (fuel : Nat) (toks : List Tok) (cur : Nat) (count : Nat)
    (acc : List Node) : Res (List Node × Nat × Option PErr × Nat) :=
  match fuel with
  | 0 => .timeout
  | fuel + 1 =>
    mbind (pmatch toks cur [.Comma]) fun pm pc =>
    if pm then
      (expression fuel toks pc).bind fun (arg, err, c2) =>
        match err with
        | some e => .ok (acc, count + 1, some e, c2)
        | none =>
          match arg with
          | .null => finishCallLoop fuel toks c2 (count + 1) acc
          | a => finishCallLoop fuel toks c2 (count + 1) (acc ++ [a])
    else .ok (acc, count, none, pc)
termination_by structural fuel

/-- primary of parser.go. -/
def primary (fuel : Nat) (toks : List Tok) (cur : Nat) : PR :=
  match fuel with
  | 0 => .timeout
  | fuel + 1 =>
    mbind (pmatch toks cur [.Identifier]) fun p1m p1c =>
    if p1m then
      match previous toks p1c with
      | none => .panic
      | some t => .ok (.mk .IdentifierNT t.toValue .null .null .null .null, none, p1c)
    else
      mbind (pmatch toks p1c [.Number]) fun p2m p2c =>
      if p2m then
        match previous toks p2c with
        | none => .panic
        | some t => .ok (.mk .NumberNT t.toValue .null .null .null .null, none, p2c)
      else
        mbind (pmatch toks p2c [.String]) fun p3m p3c =>
        if p3m then
          match previous toks p3c with
          | none => .panic
          | some t => .ok (.mk .StringNT t.toValue .null .null .null .null, none, p3c)
        else
          mbind (pmatch toks p3c [.True, .False]) fun p4m p4c =>
          if p4m then
            match previous toks p4c with
            | none => .panic
            | some t => .ok (.mk .BoolNT t.toValue .null .null .null .null, none, p4c)
          else
            mbind (pmatch toks p4c [.Nil]) fun p5m p5c =>
            if p5m then
              match previous toks p5c with
              | none => .panic
              | some t => .ok (.mk .NilNT t.toValue .null .null .null .null, none, p5c)
            else
              mbind (pmatch toks p5c [.LeftParen]) fun p6m p6c =>
              if p6m then
                (expression fuel toks p6c).bind fun (expr, err, c1) =>
                  mbind (pmatch toks c1 [.RightParen]) fun rpm rpc =>
                  if rpm then .ok (.mk .GroupNT [] .null expr .null .null, err, rpc)
                  else errAt toks rpc
              else errAt toks p6c
termination_by structural fuel
end

/-- Parse of parser.go: run program() from cursor 0. -/
def Parse (fuel : Nat) (toks : List Tok) : PR := program fuel toks 0

end Golox

/-! ### Evaluator: the environment model and the interpret functions.

The Go evaluator walks the AST against a chain of environments reached
through `Enclosing` pointers, mutating the `Values` maps in place.  At
any moment exactly the chain from the current scope to the global one
is visible, so the state is that chain (innermost first) plus the list
of runtime diagnostics printed so far.  Pushing a scope prepends an
empty frame; functions that pushed one drop it when they return, which
reproduces the pointer discipline of the source.  Dereferencing a nil
`*Node` is `Res.panic` exactly where Go would panic. -/

namespace Golox

/-- A runtime diagnostic printed by the evaluator: one constructor per
printf site of the source, carrying the name where the message shows
one. -/
inductive RtErr where
  | notAProgram
  | notAStatement
  | varRedeclared (name : Bytes)
  | funRedeclared (name : Bytes)
  | undeclaredVar (name : Bytes)
  | undefinedVar (name : Bytes)
  | notCallable
  | undefinedFunction (name : Bytes)
  | tooFewArgs
  | tooManyArgs
  | equalityExpected
  | comparisonTypeErr
  | comparisonExpected
  | addTypeErr
  | subtractTypeErr
  | multiplyTypeErr
  | termExpected
  | factorExpected
  | unaryMinusUndefined
  | unaryExpected
deriving Repr, DecidableEq

/-- One scope: the Values map of environment.go, as an association list
(lookup takes the first hit, writing overwrites in place). -/
abbrev Frame := List (Bytes × Node)

/-- The evaluator state: the chain of environments from the current
scope to the global one, plus the diagnostics printed so far. -/
structure St where
  env : List Frame
  errs : List RtErr
deriving Repr, DecidableEq

/-- A Go `*Node` return value paired with the state. -/
abbrev IR := Res (Node × St)

/-- Go map read `v, ok := m[k]`. -/
def frameGet (f : Frame) (k : Bytes) : Option Node :=
  (f.find? (fun p => p.1 == k)).map (fun p => p.2)

/-- Go map write `m[k] = v`. -/
def frameSet (f : Frame) (k : Bytes) (v : Node) : Frame :=
  match f with
  | [] => [(k, v)]
  | (k2, v2) :: rest => if k2 == k then (k, v) :: rest else (k2, v2) :: frameSet rest k v

/-- The scope walk `for scope := env; !ok && scope != nil; scope =
scope.Enclosing`: first hit wins. -/
def chainGet : List Frame → Bytes → Option Node
  | [], _ => none
  | f :: rest, k =>
    match frameGet f k with
    | some v => some v
    | none => chainGet rest k

/-- The assignment walk of interpretAssignment: mutate the innermost
scope that defines the name; none when no scope does. -/
def chainSet : List Frame → Bytes → Node → Option (List Frame)
  | [], _, _ => none
  | f :: rest, k, v =>
    match frameGet f k with
    | some _ => some (frameSet f k v :: rest)
    | none => (chainSet rest k v).map (fun r => f :: r)

/-- ToString of stmt.go, as the evaluator observes it: for the node
kinds the evaluator switches on or reads names from, the rendering is
the Data bytes; Bool and Nil render their literals.  The kinds whose Go
rendering recurses into children or formats a number (FunDecl, Call,
Number) appear only inside diagnostics whose text is not modelled, and
are given fixed placeholders here. -/
def Node.toStr : Node → Bytes
  | .null => []
  | .mk t d _ _ _ _ =>
    match t with
    | .ProgramNT => str (r"<program>")
    | .DeclarationNT => str (r"<declaration>")
    | .VarDeclNT => str (r"<variable declaration>")
    | .FunDeclNT => str (r"<function declaration>")
    | .FunctionNT => str (r"<function object>")
    | .BlockNT => str (r"<block>")
    | .ReturnStmtNT => str (r"<return>")
    | .WhileStmtNT => str (r"<while>")
    | .IfStmtNT => str (r"<if>")
    | .AssignmentNT => str (r"<assignment>")
    | .LogicOrNT => str (r"<or>")
    | .LogicAndNT => str (r"<and>")
    | .ArgNT => str (r"<argument>")
    | .CallNT => str (r"<call>")
    | .CallableNT => str (r"<callable>")
    | .StmtNT => str (r"<statement>")
    | .ExprStmtNT => str (r"<expression statement>")
    | .PrintStmtNT => str (r"print")
    | .EqualityNT => d
    | .ComparisonNT => d
    | .TermNT => d
    | .FactorNT => d
    | .UnaryNT => d
    | .IdentifierNT => d
    | .ParamNT => d
    | .GroupNT => str (r"<group>")
    | .EOFNT => str (r"<end-of-file>")
    | .StringNT => d
    | .NumberNT => str (r"<number>")
    | .BoolNT => if d.head? = some 1 then str (r"true") else str (r"false")
    | .NilNT => str (r"nil")

/-- truthy of stmt.go.  Go dereferences a nil receiver and indexes
Data[0] of a BoolNT node, so those are `none` (panic). -/
def Node.truthy : Node → Option Bool
  | .null => none
  | .mk t d _ _ _ _ =>
    if t = .BoolNT then
      match d.head? with
      | none => none
      | some b => some (!(b == 0))
    else if t = .NilNT then some false
    else some true

/-- setNativeFunctions of interpret.go: registers the clock
placeholder (arity byte 0, an identifier node, no body). -/
def setNativeFunctions (f : Frame) : Frame :=
  frameSet f (str (r"clock"))
    (.mk .CallableNT [0]
      (.mk .IdentifierNT (encodeString (str (r"clock"))) .null .null .null .null)
      .null .null .null)

set_option maxHeartbeats 3200000 in
mutual

/-- interpretStmt of interpret.go: the statement dispatcher. -/
def interpretStmt (fuel : Nat) (st : St) (stmt : Node) : IR :=
  match fuel with
  | 0 => .timeout
  | fuel + 1 =>
    match stmt with
    | .null => .panic
    | s@(.mk t _ _ right _ next) =>
      match t with
      | .DeclarationNT | .StmtNT | .ExprStmtNT =>
        (interpretStmt fuel st right).bind fun (_, st2) => .ok (next, st2)
      | .VarDeclNT => interpretVarDecl fuel st s
      | .FunDeclNT => interpretFunDecl fuel st s
      | .BlockNT => interpretBlock fuel st s
      | .IfStmtNT => interpretIfStmt fuel st s
      | .WhileStmtNT => interpretWhileStmt fuel st s
      | .PrintStmtNT =>
        (interpretExpr fuel st right).bind fun (_, st2) => .ok (next, st2)
      | .AssignmentNT => interpretAssignment fuel st s
      | .CallNT => interpretCall fuel st s
      | .ReturnStmtNT => interpretReturnStmt fuel st s
      | _ => .ok (.null, { st with errs := st.errs ++ [.notAStatement] })
termination_by structural fuel

/-- interpretExpr of interpret.go: the expression dispatcher.  On a
CallNT node the source takes `.Right` of the value interpretCall
returns, a nil dereference (panic) when that value is nil. -/
def interpretExpr (fuel : Nat) (st : St) (expr : Node) : IR :=
  match fuel with
  | 0 => .timeout
  | fuel + 1 =>
    match expr with
    | .null => .panic
    | e@(.mk t _ _ _ _ _) =>
      match t with
      | .CallNT =>
        (interpretCall fuel st e).bind fun (c, st2) =>
          match c with
          | .null => .panic
          | .mk _ _ _ cr _ _ => .ok (cr, st2)
      | .LogicOrNT => interpretOr fuel st e
      | .LogicAndNT => interpretAnd fuel st e
      | .EqualityNT => interpretEquality fuel st e
      | .ComparisonNT => interpretComparison fuel st e
      | .TermNT => interpretTerm fuel st e
      | .FactorNT => interpretFactor fuel st e
      | .UnaryNT => interpretUnary fuel st e
      | .IdentifierNT | .ParamNT => interpretIdentifier fuel st e
      | .NumberNT | .StringNT | .BoolNT | .NilNT | .FunctionNT => .ok (e, st)
      | _ => .ok (.mk .NilNT [] .null .null .null .null, st)
termination_by structural fuel

/-- interpretVarDecl of the evaluator (the source in part 002). -/
def interpretVarDecl (fuel : Nat) (st : St) (stmt : Node) : IR :=
  match fuel with
  | 0 => .timeout
  | fuel + 1 =>
    match stmt with
    | .null => .panic
    | .mk _ _ left right _ next =>
      let name := left.toStr
      match st.env with
      | [] => .panic
      | f :: rest =>
        if (frameGet f name).isSome then
          .ok (.null, { st with errs := st.errs ++ [.varRedeclared name] })
        else
          (interpretExpr fuel st right).bind fun (val, st2) =>
            match st2.env with
            | [] => .panic
            | f2 :: rest2 => .ok (next, { st2 with env := frameSet f2 name val :: rest2 })
termination_by structural fuel

/-- interpretFunDecl of the evaluator: stores a FunctionNT node whose
Left is the parameter chain and whose Right is the body. -/
def interpretFunDecl (fuel : Nat) (st : St) (stmt : Node) : IR :=
  match fuel with
  | 0 => .timeout
  | fuel + 1 =>
    match stmt with
    | .null => .panic
    | .mk _ dataA left rightP thirdB next =>
      let name := left.toStr
      match st.env with
      | [] => .panic
      | f :: rest =>
        if (frameGet f name).isSome then
          .ok (.null, { st with errs := st.errs ++ [.funRedeclared name] })
        else
          .ok (next,
            { st with env :=
                frameSet f name (.mk .FunctionNT dataA rightP thirdB .null .null) :: rest })

/-- interpretBlock of the evaluator: pushes a scope and walks the
statement list, short-circuiting a Return into a wrapper node whose
Next is the Next of the block. -/
def interpretBlock (fuel : Nat) (st : St) (stmt : Node) : IR :=
  match fuel with
  | 0 => .timeout
  | fuel + 1 =>
    match stmt with
    | .null => .panic
    | .mk _ _ _ right _ next =>
      (blockRun fuel { st with env := [] :: st.env } right next).bind fun (r, st2) =>
        .ok (r, { st2 with env := st2.env.tail })
termination_by structural fuel

/-- The statement loop of interpretBlock (`for next != nil`). -/
def blockRun (fuel : Nat) (st : St) (nextN : Node) (stmtNext : Node) : IR :=
  match fuel with
  | 0 => .timeout
  | fuel + 1 =>
    match nextN with
    | .null => .ok (stmtNext, st)
    | n@(.mk t _ _ nright _ _) =>
      if t = .ReturnStmtNT then
        (interpretExpr fuel st nright).bind fun (v, st2) =>
          .ok (.mk .ReturnStmtNT [] .null v .null stmtNext, st2)
      else
        (interpretStmt fuel st n).bind fun (n2, st2) => blockRun fuel st2 n2 stmtNext
termination_by structural fuel

/-- interpretIfStmt of the evaluator: hands the chosen branch back to
the driver with its Next rewired to the Next of the If. -/
def interpretIfStmt (fuel : Nat) (st : St) (stmt : Node) : IR :=
  match fuel with
  | 0 => .timeout
  | fuel + 1 =>
    match stmt with
    | .null => .panic
    | .mk _ _ left right third next =>
      (interpretExpr fuel st left).bind fun (cond, st2) =>
        match cond.truthy with
        | none => .panic
        | some true =>
          match right.withNext next with
          | none => .panic
          | some r2 => .ok (r2, st2)
        | some false =>
          if third ≠ .null then
            match third.withNext next with
            | none => .panic
            | some t2 => .ok (t2, st2)
          else .ok (next, st2)
termination_by structural fuel

/-- interpretWhileStmt of the evaluator: one scope for the whole loop;
a Return from the body short-circuits out. -/
def interpretWhileStmt (fuel : Nat) (st : St) (stmt : Node) : IR :=
  match fuel with
  | 0 => .timeout
  | fuel + 1 =>
    match stmt with
    | .null => .panic
    | .mk _ _ left right _ next =>
      (whileRun fuel { st with env := [] :: st.env } left right next).bind fun (r, st2) =>
        .ok (r, { st2 with env := st2.env.tail })
termination_by structural fuel

/-- The condition-test-body loop of interpretWhileStmt. -/
def whileRun (fuel : Nat) (st : St) (left right next : Node) : IR :=
  match fuel with
  | 0 => .timeout
  | fuel + 1 =>
    (interpretExpr fuel st left).bind fun (cond, st2) =>
      match cond.truthy with
      | none => .panic
      | some false => .ok (next, st2)
      | some true =>
        (interpretStmt fuel st2 right).bind fun (res, st3) =>
          match res with
          | .mk rt _ _ resRight _ _ =>
            if rt = .ReturnStmtNT then
              (interpretExpr fuel st3 resRight).bind fun (v, st4) =>
                .ok (.mk .ReturnStmtNT [] .null v .null next, st4)
            else whileRun fuel st3 left right next
          | .null => whileRun fuel st3 left right next
termination_by structural fuel

/-- interpretAssignment of the evaluator. -/
def interpretAssignment (fuel : Nat) (st : St) (stmt : Node) : IR :=
  match fuel with
  | 0 => .timeout
  | fuel + 1 =>
    match stmt with
    | .null => .panic
    | .mk _ _ left right _ next =>
      let name := left.toStr
      (interpretExpr fuel st right).bind fun (val, st2) =>
        match chainSet st2.env name val with
        | some env2 => .ok (next, { st2 with env := env2 })
        | none => .ok (.null, { st2 with errs := st2.errs ++ [.undeclaredVar name] })
termination_by structural fuel

/-- interpretCall of the evaluator: resolves the callee by name, builds
a fresh environment enclosed by the caller environment, binds the
arguments in it, runs the body, and dereferences the result node to
decide whether a Return came back (nil result: panic, as in Go). -/
def interpretCall (fuel : Nat) (st : St) (stmt : Node) : IR :=
  match fuel with
  | 0 => .timeout
  | fuel + 1 =>
    match stmt with
    | .null => .panic
    | .mk _ _ left right _ next =>
      match left with
      | .null => .panic
      | leftN =>
        if leftN.typeOf ≠ some .IdentifierNT then
          .ok (.null, { st with errs := st.errs ++ [.notCallable] })
        else
          let name := leftN.toStr
          match chainGet st.env name with
          | none => .ok (.null, { st with errs := st.errs ++ [.undefinedFunction name] })
          | some fn =>
            match fn with
            | .null => .ok (.null, { st with errs := st.errs ++ [.undefinedFunction name] })
            | .mk _ _ fnLeft fnRight _ _ =>
              (bindArgs fuel { st with env := [] :: st.env } right fnLeft).bind
                fun (berr, st3) =>
                  match berr with
                  | some _ => .ok (.null, { st3 with env := st3.env.tail })
                  | none =>
                    (interpretStmt fuel st3 fnRight).bind fun (result, st4) =>
                      match result with
                      | .null => .panic
                      | .mk rt _ _ rright _ _ =>
                        if rt = .ReturnStmtNT then
                          (interpretExpr fuel st4 rright).bind fun (v, st5) =>
                            .ok (.mk .ReturnStmtNT [] .null v .null next,
                              { st5 with env := st5.env.tail })
                        else .ok (next, { st4 with env := st4.env.tail })
termination_by structural fuel

/-- The argument-binding loop of interpretCall: each argument is
evaluated in the new function environment (whose frame is the head of
the state chain and already holds the earlier parameters), then bound
to its parameter there.  Arity mismatches print a diagnostic and make
interpretCall return nil. -/
def bindArgs (fuel : Nat) (st : St) (arg param : Node) : Res (Option RtErr × St) :=
  match fuel with
  | 0 => .timeout
  | fuel + 1 =>
    match arg, param with
    | .null, .null => .ok (none, st)
    | .null, .mk _ _ _ _ _ _ =>
      .ok (some .tooFewArgs, { st with errs := st.errs ++ [.tooFewArgs] })
    | .mk _ _ _ _ _ _, .null =>
      .ok (some .tooManyArgs, { st with errs := st.errs ++ [.tooManyArgs] })
    | a@(.mk _ _ _ _ _ anext), p@(.mk _ _ _ _ _ pnext) =>
      (interpretExpr fuel st a).bind fun (val, st2) =>
        match st2.env with
        | [] => .panic
        | f :: rest =>
          bindArgs fuel { st2 with env := frameSet f p.toStr val :: rest } anext pnext
termination_by structural fuel

/-- interpretReturnStmt of the evaluator: the statement itself. -/
def interpretReturnStmt (fuel : Nat) (st : St) (stmt : Node) : IR :=
  match fuel with
  | 0 => .timeout
  | fuel + 1 => .ok (stmt, st)

/-- interpretOr of the evaluator (part 003). -/
def interpretOr (fuel : Nat) (st : St) (expr : Node) : IR :=
  match fuel with
  | 0 => .timeout
  | fuel + 1 =>
    match expr with
    | .null => .panic
    | .mk _ _ left right _ _ =>
      (interpretExpr fuel st left).bind fun (l, st2) =>
        match l.truthy with
        | none => .panic
        | some true => .ok (l, st2)
        | some false =>
          (interpretExpr fuel st2 right).bind fun (r, st3) =>
            match r.truthy with
            | none => .panic
            | some true => .ok (r, st3)
            | some false =>
              .ok (.mk .BoolNT (encodeBool false) .null .null .null .null, st3)
termination_by structural fuel

/-- interpretAnd of the evaluator. -/
def interpretAnd (fuel : Nat) (st : St) (expr : Node) : IR :=
  match fuel with
  | 0 => .timeout
  | fuel + 1 =>
    match expr with
    | .null => .panic
    | .mk _ _ left right _ _ =>
      (interpretExpr fuel st left).bind fun (l, st2) =>
        match l.truthy with
        | none => .panic
        | some true =>
          (interpretExpr fuel st2 right).bind fun (r, st3) =>
            match r.truthy with
            | none => .panic
            | some true =>
              .ok (.mk .BoolNT (encodeBool true) .null .null .null .null, st3)
            | some false =>
              .ok (.mk .BoolNT (encodeBool false) .null .null .null .null, st3)
        | some false =>
          .ok (.mk .BoolNT (encodeBool false) .null .null .null .null, st2)
termination_by structural fuel

/-- interpretEquality of the evaluator: kind mismatch decides the
result; same kinds compare payload bytes. -/
def interpretEquality (fuel : Nat) (st : St) (expr : Node) : IR :=
  match fuel with
  | 0 => .timeout
  | fuel + 1 =>
    match expr with
    | .null => .panic
    | e@(.mk _ _ left right _ _) =>
      (interpretExpr fuel st left).bind fun (l, st2) =>
        (interpretExpr fuel st2 right).bind fun (r, st3) =>
          if e.toStr = str (r"==") then
            match l, r with
            | .mk lt ld _ _ _ _, .mk rt rd _ _ _ _ =>
              if lt ≠ rt then
                .ok (.mk .BoolNT (encodeBool false) .null .null .null .null, st3)
              else
                .ok (.mk .BoolNT (encodeBool (compareValues ld rd)) .null .null .null .null, st3)
            | _, _ => .panic
          else if e.toStr = str (r"!=") then
            match l, r with
            | .mk lt ld _ _ _ _, .mk rt rd _ _ _ _ =>
              if lt ≠ rt then
                .ok (.mk .BoolNT (encodeBool true) .null .null .null .null, st3)
              else
                .ok (.mk .BoolNT (encodeBool (!compareValues ld rd)) .null .null .null .null, st3)
            | _, _ => .panic
          else .ok (.null, { st3 with errs := st3.errs ++ [.equalityExpected] })
termination_by structural fuel

/-- interpretComparison of the evaluator: both operands must be
Numbers; binary32 order agrees with the exact rational order of the
decoded values. -/
def interpretComparison (fuel : Nat) (st : St) (expr : Node) : IR :=
  match fuel with
  | 0 => .timeout
  | fuel + 1 =>
    match expr with
    | .null => .panic
    | e@(.mk _ _ left right _ _) =>
      (interpretExpr fuel st left).bind fun (l, st2) =>
        (interpretExpr fuel st2 right).bind fun (r, st3) =>
          match l, r with
          | .mk lt ld _ _ _ _, .mk rt rd _ _ _ _ =>
            if lt ≠ .NumberNT ∨ rt ≠ .NumberNT then
              .ok (.null, { st3 with errs := st3.errs ++ [.comparisonTypeErr] })
            else
              match decodeLoxNumber ld, decodeLoxNumber rd with
              | some numL, some numR =>
                if e.toStr = [60] then
                  .ok (.mk .BoolNT (encodeBool (decide (numL < numR))) .null .null .null .null, st3)
                else if e.toStr = str (r"<=") then
                  .ok (.mk .BoolNT (encodeBool (decide (numL ≤ numR))) .null .null .null .null, st3)
                else if e.toStr = [62] then
                  .ok (.mk .BoolNT (encodeBool (decide (numR < numL))) .null .null .null .null, st3)
                else if e.toStr = str (r">=") then
                  .ok (.mk .BoolNT (encodeBool (decide (numR ≤ numL))) .null .null .null .null, st3)
                else .ok (.null, { st3 with errs := st3.errs ++ [.comparisonExpected] })
              | _, _ => .panic
          | _, _ => .panic
termination_by structural fuel

/-- interpretTerm of the evaluator: numeric addition or subtraction
(one binary32 rounding each, performed by encodeLoxNumber) and string
concatenation. -/
def interpretTerm (fuel : Nat) (st : St) (expr : Node) : IR :=
  match fuel with
  | 0 => .timeout
  | fuel + 1 =>
    match expr with
    | .null => .panic
    | e@(.mk _ _ left right _ _) =>
      if e.toStr = [43] then
        (interpretExpr fuel st left).bind fun (l, st2) =>
          (interpretExpr fuel st2 right).bind fun (r, st3) =>
            match l, r with
            | .mk lt ld _ _ _ _, .mk rt rd _ _ _ _ =>
              if lt = .NumberNT ∧ rt = .NumberNT then
                match decodeLoxNumber ld, decodeLoxNumber rd with
                | some numL, some numR =>
                  .ok (.mk .NumberNT (encodeLoxNumber (numL + numR)) .null .null .null .null, st3)
                | _, _ => .panic
              else if lt = .StringNT ∧ rt = .StringNT then
                .ok (.mk .StringNT (ld ++ rd) .null .null .null .null, st3)
              else .ok (.null, { st3 with errs := st3.errs ++ [.addTypeErr] })
            | _, _ => .panic
      else if e.toStr = [45] then
        (interpretExpr fuel st left).bind fun (l, st2) =>
          (interpretExpr fuel st2 right).bind fun (r, st3) =>
            match l, r with
            | .mk lt ld _ _ _ _, .mk rt rd _ _ _ _ =>
              if lt ≠ .NumberNT ∨ rt ≠ .NumberNT then
                .ok (.null, { st3 with errs := st3.errs ++ [.subtractTypeErr] })
              else
                match decodeLoxNumber ld, decodeLoxNumber rd with
                | some numL, some numR =>
                  .ok (.mk .NumberNT (encodeLoxNumber (numL - numR)) .null .null .null .null, st3)
                | _, _ => .panic
            | _, _ => .panic
      else .ok (.null, { st with errs := st.errs ++ [.termExpected] })
termination_by structural fuel

/-- interpretFactor of the evaluator.  (Go division by zero follows
IEEE-754 and yields an infinity; the rational model yields the node for
zero there.  No claim exercises division.) -/
def interpretFactor (fuel : Nat) (st : St) (expr : Node) : IR :=
  match fuel with
  | 0 => .timeout
  | fuel + 1 =>
    match expr with
    | .null => .panic
    | e@(.mk _ _ left right _ _) =>
      if e.toStr = [42] then
        (interpretExpr fuel st left).bind fun (l, st2) =>
          (interpretExpr fuel st2 right).bind fun (r, st3) =>
            match l, r with
            | .mk lt ld _ _ _ _, .mk rt rd _ _ _ _ =>
              if lt ≠ .NumberNT ∨ rt ≠ .NumberNT then
                .ok (.null, { st3 with errs := st3.errs ++ [.multiplyTypeErr] })
              else
                match decodeLoxNumber ld, decodeLoxNumber rd with
                | some numL, some numR =>
                  .ok (.mk .NumberNT (encodeLoxNumber (numL * numR)) .null .null .null .null, st3)
                | _, _ => .panic
            | _, _ => .panic
      else if e.toStr = [47] then
        (interpretExpr fuel st left).bind fun (l, st2) =>
          (interpretExpr fuel st2 right).bind fun (r, st3) =>
            match l, r with
            | .mk lt ld _ _ _ _, .mk rt rd _ _ _ _ =>
              if lt ≠ .NumberNT ∨ rt ≠ .NumberNT then
                .ok (.null, { st3 with errs := st3.errs ++ [.multiplyTypeErr] })
              else
                match decodeLoxNumber ld, decodeLoxNumber rd with
                | some numL, some numR =>
                  .ok (.mk .NumberNT (encodeLoxNumber (numL / numR)) .null .null .null .null, st3)
                | _, _ => .panic
            | _, _ => .panic
      else .ok (.null, { st with errs := st.errs ++ [.factorExpected] })
termination_by structural fuel

/-- interpretUnary of the evaluator.  In the minus case the source
tests `expr.Type` (the UnaryNT node itself) rather than the type of the
evaluated operand, so the sign-flipping branch below the test is
unreachable. -/
def interpretUnary (fuel : Nat) (st : St) (expr : Node) : IR :=
  match fuel with
  | 0 => .timeout
  | fuel + 1 =>
    match expr with
    | .null => .panic
    | e@(.mk et _ _ right _ _) =>
      if e.toStr = [33] then
        (interpretExpr fuel st right).bind fun (r, st2) =>
          match r.truthy with
          | none => .panic
          | some b => .ok (.mk .BoolNT (encodeBool (!b)) .null .null .null .null, st2)
      else if e.toStr = [45] then
        (interpretExpr fuel st right).bind fun (r, st2) =>
          if et ≠ .NumberNT then
            .ok (.null, { st2 with errs := st2.errs ++ [.unaryMinusUndefined] })
          else
            match r with
            | .null => .panic
            | .mk _ rd _ _ _ _ =>
              match rd with
              | [] => .panic
              | b0 :: bs =>
                .ok (.mk .NumberNT ((b0 ^^^ 128) :: bs) .null .null .null .null, st2)
      else .ok (.null, { st with errs := st.errs ++ [.unaryExpected] })
termination_by structural fuel

/-- interpretIdentifier of the evaluator. -/
def interpretIdentifier (fuel : Nat) (st : St) (expr : Node) : IR :=
  match fuel with
  | 0 => .timeout
  | fuel + 1 =>
    match expr with
    | .null => .panic
    | e =>
      let name := e.toStr
      match chainGet st.env name with
      | none => .ok (.null, { st with errs := st.errs ++ [.undefinedVar name] })
      | some v =>
        match v with
        | .null => .ok (.null, { st with errs := st.errs ++ [.undefinedVar name] })
        | _ => .ok (v, st)

end

/-- The driver loop of Interpret (`for stmt != nil`). -/
def interpretLoop (fuel : Nat) (st : St) (stmt : Node) : Res St :=
  match fuel with
  | 0 => .timeout
  | fuel + 1 =>
    match stmt with
    | .null => .ok st
    | s => (interpretStmt fuel st s).bind fun (n2, st2) => interpretLoop fuel st2 n2

/-- Interpret of interpret.go: checks for a Program root, builds the
global environment with the native functions, and walks the top-level
statement chain. -/
def Interpret (fuel : Nat) (prgm : Node) : Res St :=
  match prgm with
  | .null => .panic
  | .mk t _ _ right _ _ =>
    if t ≠ .ProgramNT then .ok { env := [], errs := [.notAProgram] }
    else interpretLoop fuel { env := [setNativeFunctions []], errs := [] } right

end Golox

/-! ### Scanner lemmas and claims -/

namespace Golox

/-- findString never finds a closing quote when none exists: it consumes
the whole input, appends it to the accumulator, and counts newlines. -/
theorem findString_no_quote : ∀ (rest current : Bytes) (lines : Nat), 34 ∉ rest →
    findString rest current lines = ([], current ++ rest, lines + rest.count 10) := by
  intro rest
  induction rest with
  | nil => intro current lines _; simp [findString]
  | cons c rest ih =>
    intro current lines h
    simp only [List.mem_cons, not_or] at h
    have hc : ¬ c = 34 := fun hh => h.1 hh.symm
    by_cases h10 : c = 10
    · subst h10
      rw [findString, if_neg hc, if_pos rfl, ih _ _ h.2]
      simp [List.count_cons]
      omega
    · rw [findString, if_neg hc, if_neg h10, ih _ _ h.2]
      simp [List.count_cons, Ne.symm h10]

end Golox

namespace Golox

set_option maxHeartbeats 1000000 in
/-- Whenever lex returns without an error, the token list ends in the
EOF token with lexeme bytes [0]: the only error-free exit of the
recursion is the empty-tail base case, which appends exactly that
token. -/
theorem lex_ok_last_eof : ∀ (fuel : Nat) (current : List Tok) (tail : Bytes) (line : Nat)
    (toks : List Tok), lex fuel current tail line none = Res.ok (toks, none) →
    ∃ pre l, toks = pre ++ [newToken TokenType.EOF [0] l] := by
  intro fuel
  induction fuel with
  | zero => intro _ _ _ _ h; exact absurd h (by simp [lex])
  | succ fuel ih =>
    intro current tail line toks h
    cases tail with
    | nil =>
      rw [lex.eq_def] at h
      dsimp only at h
      simp only [Res.ok.injEq, Prod.mk.injEq] at h
      exact ⟨current, line, h.1.symm⟩
    | cons r rest =>
      rw [lex.eq_def] at h
      dsimp only at h
      by_cases c10 : r = 10
      · rw [if_pos c10] at h; exact ih _ _ _ _ h
      rw [if_neg c10] at h
      by_cases c9 : r = 9
      · rw [if_pos c9] at h; exact ih _ _ _ _ h
      rw [if_neg c9] at h
      by_cases c13 : r = 13
      · rw [if_pos c13] at h; exact ih _ _ _ _ h
      rw [if_neg c13] at h
      by_cases c32 : r = 32
      · rw [if_pos c32] at h; exact ih _ _ _ _ h
      rw [if_neg c32] at h
      by_cases c40 : r = 40
      · rw [if_pos c40] at h; exact ih _ _ _ _ h
      rw [if_neg c40] at h
      by_cases c41 : r = 41
      · rw [if_pos c41] at h; exact ih _ _ _ _ h
      rw [if_neg c41] at h
      by_cases c123 : r = 123
      · rw [if_pos c123] at h; exact ih _ _ _ _ h
      rw [if_neg c123] at h
      by_cases c125 : r = 125
      · rw [if_pos c125] at h; exact ih _ _ _ _ h
      rw [if_neg c125] at h
      by_cases c44 : r = 44
      · rw [if_pos c44] at h; exact ih _ _ _ _ h
      rw [if_neg c44] at h
      by_cases c46 : r = 46
      · rw [if_pos c46] at h; exact ih _ _ _ _ h
      rw [if_neg c46] at h
      by_cases c45 : r = 45
      · rw [if_pos c45] at h; exact ih _ _ _ _ h
      rw [if_neg c45] at h
      by_cases c43 : r = 43
      · rw [if_pos c43] at h; exact ih _ _ _ _ h
      rw [if_neg c43] at h
      by_cases c59 : r = 59
      · rw [if_pos c59] at h; exact ih _ _ _ _ h
      rw [if_neg c59] at h
      by_cases c42 : r = 42
      · rw [if_pos c42] at h; exact ih _ _ _ _ h
      rw [if_neg c42] at h
      by_cases c33 : r = 33
      · rw [if_pos c33] at h
        cases rest with
        | nil => simp at h
        | cons c rest2 =>
          dsimp only at h
          by_cases ceq33 : c = 61
          · rw [if_pos ceq33] at h; exact ih _ _ _ _ h
          · rw [if_neg ceq33] at h; exact ih _ _ _ _ h
      rw [if_neg c33] at h
      by_cases c61 : r = 61
      · rw [if_pos c61] at h
        cases rest with
        | nil => simp at h
        | cons c rest2 =>
          dsimp only at h
          by_cases ceq61 : c = 61
          · rw [if_pos ceq61] at h; exact ih _ _ _ _ h
          · rw [if_neg ceq61] at h; exact ih _ _ _ _ h
      rw [if_neg c61] at h
      by_cases c60 : r = 60
      · rw [if_pos c60] at h
        cases rest with
        | nil => simp at h
        | cons c rest2 =>
          dsimp only at h
          by_cases ceq60 : c = 61
          · rw [if_pos ceq60] at h; exact ih _ _ _ _ h
          · rw [if_neg ceq60] at h; exact ih _ _ _ _ h
      rw [if_neg c60] at h
      by_cases c62 : r = 62
      · rw [if_pos c62] at h
        cases rest with
        | nil => simp at h
        | cons c rest2 =>
          dsimp only at h
          by_cases ceq62 : c = 61
          · rw [if_pos ceq62] at h; exact ih _ _ _ _ h
          · rw [if_neg ceq62] at h; exact ih _ _ _ _ h
      rw [if_neg c62] at h
      by_cases c47 : r = 47
      · rw [if_pos c47] at h
        cases rest with
        | nil => simp at h
        | cons c rest2 =>
          dsimp only at h
          by_cases ceq47 : c = 47
          · rw [if_pos ceq47] at h; exact ih _ _ _ _ h
          · rw [if_neg ceq47] at h; exact ih _ _ _ _ h
      rw [if_neg c47] at h
      by_cases c34 : r = 34
      · rw [if_pos c34] at h; exact ih _ _ _ _ h
      rw [if_neg c34] at h
      by_cases cdig : isDigit r = true
      · rw [if_pos cdig] at h; exact ih _ _ _ _ h
      rw [if_neg cdig] at h
      by_cases calpha : isAlpha r = true
      · rw [if_pos calpha] at h
        by_cases ckw : (keywordLookup (findIdentifier rest [r]).2).isSome = true
        · rw [if_pos ckw] at h; exact ih _ _ _ _ h
        · rw [if_neg ckw] at h; exact ih _ _ _ _ h
      rw [if_neg calpha] at h
      simp at h

end Golox

namespace Golox

/-- C7: on every source the scanner accepts, the returned token list is
nonempty and ends in the EOF token with lexeme bytes [0] (the NUL
character); scanning the empty source yields exactly that EOF token at
line 1. -/
theorem claim7_lex_eof :
    (∀ (src : Bytes) (toks : List Tok), Lex src = Res.ok (toks, none) →
        toks ≠ [] ∧ ∃ l, toks.getLast? = some (newToken TokenType.EOF [0] l)) ∧
      Lex [] = Res.ok ([newToken TokenType.EOF [0] 1], none) := by
  refine ⟨?_, rfl⟩
  intro src toks h
  obtain ⟨pre, l, rfl⟩ := lex_ok_last_eof _ _ _ _ _ h
  refine ⟨by simp, l, ?_⟩
  exact List.getLast?_concat _

/-- Witness for C7 at the one-byte source consisting of a plus sign. -/
theorem claim7_lex_eof_witness :
    ([newToken TokenType.Plus [43] 1, newToken TokenType.EOF [0] 1] ≠ ([] : List Tok)) ∧
      ∃ l, [newToken TokenType.Plus [43] 1, newToken TokenType.EOF [0] 1].getLast? =
        some (newToken TokenType.EOF [0] l) :=
  claim7_lex_eof.1 [43] [newToken TokenType.Plus [43] 1, newToken TokenType.EOF [0] 1] rfl

/-- C2 counterexample: scanning a source that opens a string literal and
never closes it returns no lexing error at all, and silently emits a
String token, contrary to the claim. -/
theorem claim2_counterexample :
    ∃ toks, Lex (34 :: str (r"abc")) = Res.ok (toks, none) ∧
      newToken TokenType.String (str (r"abc")) 1 ∈ toks :=
  ⟨[newToken TokenType.String (str (r"abc")) 1, newToken TokenType.EOF [0] 1],
    rfl, by simp⟩

/-- C2 amended: on an unterminated string the scanner reports nothing:
the remainder of the input becomes the content of a String token carrying
the opening line, and scanning then succeeds with an EOF token whose line
is advanced by the newlines inside the unterminated literal. -/
theorem claim2_unterminated_silent (fuel : Nat) (current : List Tok) (rest : Bytes)
    (line : Nat) (h : 34 ∉ rest) :
    lex (fuel + 2) current (34 :: rest) line none =
      Res.ok (current ++ [newToken TokenType.String rest line,
        newToken TokenType.EOF [0] (line + rest.count 10)], none) := by
  simp [lex, findString_no_quote rest [] 0 h]

/-- Witness for C2 amended at the source consisting of an opening quote
followed by abc and the end of input. -/
theorem claim2_unterminated_silent_witness :
    lex 5 [] (34 :: str (r"abc")) 1 none =
      Res.ok ([newToken TokenType.String (str (r"abc")) 1,
        newToken TokenType.EOF [0] 1], none) :=
  claim2_unterminated_silent 3 [] (str (r"abc")) 1 (by decide)

/-- C3 counterexample: scanning `+@` fails on the at-sign, yet the
returned token sequence still contains the Plus token produced before
the failing character; the earlier tokens are not discarded. -/
theorem claim3_counterexample :
    ∃ toks e, Lex (str (r"+@")) = Res.ok (toks, some e) ∧
      newToken TokenType.Plus [43] 1 ∈ toks :=
  ⟨[newToken TokenType.Plus [43] 1], ⟨1, 64⟩, rfl, by simp⟩

/-- C3 amended: on an unexpected character the scanner returns the token
slice accumulated so far unchanged (with no EOF appended), together with
the error for the failing character and its line. -/
theorem claim3_tokens_retained (fuel : Nat) (current : List Tok) (c : Nat) (rest : Bytes)
    (line : Nat) (h : isUnexpected c = true) :
    lex (fuel + 1) current (c :: rest) line none = Res.ok (current, some ⟨line, c⟩) := by
  simp only [isUnexpected, Bool.and_eq_true, Bool.not_eq_true'] at h
  obtain ⟨⟨hm, hd⟩, ha⟩ := h
  have hmem := of_decide_eq_true hm
  simp only [List.mem_cons, List.not_mem_nil, not_or, or_false] at hmem
  rw [lex.eq_def]
  dsimp only
  rw [if_neg hmem.1, if_neg hmem.2.1, if_neg hmem.2.2.1, if_neg hmem.2.2.2.1, if_neg hmem.2.2.2.2.1, if_neg hmem.2.2.2.2.2.1, if_neg hmem.2.2.2.2.2.2.1, if_neg hmem.2.2.2.2.2.2.2.1, if_neg hmem.2.2.2.2.2.2.2.2.1, if_neg hmem.2.2.2.2.2.2.2.2.2.1,
    if_neg hmem.2.2.2.2.2.2.2.2.2.2.1, if_neg hmem.2.2.2.2.2.2.2.2.2.2.2.1, if_neg hmem.2.2.2.2.2.2.2.2.2.2.2.2.1, if_neg hmem.2.2.2.2.2.2.2.2.2.2.2.2.2.1, if_neg hmem.2.2.2.2.2.2.2.2.2.2.2.2.2.2.1, if_neg hmem.2.2.2.2.2.2.2.2.2.2.2.2.2.2.2.1, if_neg hmem.2.2.2.2.2.2.2.2.2.2.2.2.2.2.2.2.1, if_neg hmem.2.2.2.2.2.2.2.2.2.2.2.2.2.2.2.2.2.1, if_neg hmem.2.2.2.2.2.2.2.2.2.2.2.2.2.2.2.2.2.2.1, if_neg hmem.2.2.2.2.2.2.2.2.2.2.2.2.2.2.2.2.2.2.2,
    if_neg (by simp [hd]), if_neg (by simp [ha])]

/-- Witness for C3 amended: one Plus token already accumulated, failing
byte 64 (at-sign); the Plus token is retained next to the error. -/
theorem claim3_tokens_retained_witness :
    lex 1 [newToken TokenType.Plus [43] 1] [64] 1 none =
      Res.ok ([newToken TokenType.Plus [43] 1], some ⟨1, 64⟩) :=
  claim3_tokens_retained 0 [newToken TokenType.Plus [43] 1] 64 [] 1 (by decide)

/-- C9 counterexample: the source consisting of the single byte `!` makes
the scanner read index 1 of a one-byte remainder: the Go out-of-range
panic, not normal termination. -/
theorem claim9_counterexample : Lex (str (r"!")) = Res.panic := rfl

/-- C9 amended: whenever the remaining input is exactly one of the five
lookahead characters, the scanner reads index 1 without a bounds check
and panics instead of terminating normally. -/
theorem claim9_lookahead_panics (fuel line : Nat) (current : List Tok) (c : Nat)
    (h : c ∈ [33, 61, 60, 62, 47]) :
    lex (fuel + 1) current [c] line none = Res.panic := by
  fin_cases h <;> rfl

/-- Witness for C9 amended at the equals-sign byte. -/
theorem claim9_lookahead_panics_witness : lex 1 [] [61] 5 none = Res.panic :=
  claim9_lookahead_panics 0 5 [] 61 (by decide)

end Golox

/-! ### Parser claims -/

namespace Golox

set_option maxHeartbeats 3200000 in
/-- C6: a for statement with an empty condition clause is REJECTED by
the parser: the condition is parsed by expression(), whose failure on
the semicolon returns before the nil-condition default-to-true branch
can run.  Scanning and parsing `for (a;;b) c;` yields a parse error
(line 1) and a Program node with no statements. -/
theorem claim6_empty_cond_rejected :
    ∃ toks, Lex (str (r"for (a;;b) c;")) = Res.ok (toks, none) ∧
      Parse 50 toks =
        Res.ok (.mk .ProgramNT [] .null .null .null .null, some ⟨1⟩, 5) :=
  ⟨[newToken .For (str (r"for")) 1, newToken .LeftParen [40] 1,
    newToken .Identifier [97] 1, newToken .Semicolon [59] 1,
    newToken .Semicolon [59] 1, newToken .Identifier [98] 1,
    newToken .RightParen [41] 1, newToken .Identifier [99] 1,
    newToken .Semicolon [59] 1, newToken .EOF [0] 1], rfl, by decide⟩

set_option maxHeartbeats 3200000 in
/-- C8: for any token sequence of the form IDENT op1 IDENT op2 IDENT
with op1 a plus and op2 a star, the parsed expression is a TermNT node
whose right child is a FactorNT node (multiplication binds tighter, the
addition is the root); and for IDENT = IDENT = NUMBER the root is an
AssignmentNT whose right child is again an AssignmentNT (assignment is
right-associative). -/
theorem claim8_precedence (a b c n p q : Bytes) (l1 l2 l3 l4 l5 : Nat) :
    (expression 50 [newToken .Identifier a l1, newToken .Plus p l2,
        newToken .Identifier b l3, newToken .Star q l4,
        newToken .Identifier c l5] 0 =
      Res.ok (.mk .TermNT p
        (.mk .IdentifierNT a .null .null .null .null)
        (.mk .FactorNT q
          (.mk .IdentifierNT b .null .null .null .null)
          (.mk .IdentifierNT c .null .null .null .null) .null .null)
        .null .null, none, 5)) ∧
    (expression 50 [newToken .Identifier a l1, newToken .Equal p l2,
        newToken .Identifier b l3, newToken .Equal q l4,
        newToken .Number n l5] 0 =
      Res.ok (.mk .AssignmentNT p
        (.mk .IdentifierNT a .null .null .null .null)
        (.mk .AssignmentNT q
          (.mk .IdentifierNT b .null .null .null .null)
          (.mk .NumberNT (encodeLoxNumberFromString n) .null .null .null .null)
          .null .null)
        .null .null, none, 5)) :=
  ⟨rfl, rfl⟩

end Golox

/-! ### Evaluator claims -/

namespace Golox

/-- C1: whenever the operand of a unary minus evaluates to a Number,
the evaluator nevertheless prints the runtime diagnostic and yields
nil: the source tests `expr.Type` (the UnaryNT node itself, never
NumberNT) instead of the type of the evaluated operand, so the
sign-flipping branch is dead and no operand is ever negated. -/
theorem claim1_unary_minus_always_errors (fuel : Nat) (st st2 : St) (right : Node)
    (bs : Value) (l r3 th nx : Node)
    (h : interpretExpr fuel st right = Res.ok (.mk .NumberNT bs l r3 th nx, st2)) :
    interpretUnary (fuel + 1) st (.mk .UnaryNT [45] .null right .null .null) =
      Res.ok (.null, { st2 with errs := st2.errs ++ [.unaryMinusUndefined] }) := by
  simp [interpretUnary, Node.toStr, h, Res.bind]

/-- Witness for C1 at the Number literal 1 in the empty state. -/
theorem claim1_unary_minus_always_errors_witness :
    interpretUnary 2 ⟨[], []⟩
        (.mk .UnaryNT [45] .null (.mk .NumberNT [63, 128, 0, 0] .null .null .null .null)
          .null .null) =
      Res.ok (.null, ⟨[], [.unaryMinusUndefined]⟩) :=
  claim1_unary_minus_always_errors 1 ⟨[], []⟩ ⟨[], []⟩
    (.mk .NumberNT [63, 128, 0, 0] .null .null .null .null)
    [63, 128, 0, 0] .null .null .null .null rfl

set_option maxRecDepth 10000 in
/-- C4: interpreting `var x;` does not bind x to nil and continue: the
parser leaves the initializer as the nil pointer, interpretVarDecl
passes it to interpretExpr, and the `expr.Type` dereference panics. -/
theorem claim4_nil_initializer_panics :
    Lex (str (r"var x;")) =
      Res.ok ([newToken .Var (str (r"var")) 1, newToken .Identifier [120] 1,
        newToken .Semicolon [59] 1, newToken .EOF [0] 1], none) ∧
    Parse 50 [newToken .Var (str (r"var")) 1, newToken .Identifier [120] 1,
        newToken .Semicolon [59] 1, newToken .EOF [0] 1] =
      Res.ok (.mk .ProgramNT [] .null
        (.mk .VarDeclNT [] (.mk .IdentifierNT [120] .null .null .null .null)
          .null .null .null) .null .null, none, 4) ∧
    Interpret 50 (.mk .ProgramNT [] .null
        (.mk .VarDeclNT [] (.mk .IdentifierNT [120] .null .null .null .null)
          .null .null .null) .null .null) = Res.panic :=
  ⟨rfl, by decide, by decide⟩

set_option maxRecDepth 10000 in
/-- C5: a call to a defined user function of matching arity whose body
finishes without a Return does not yield nil: interpretStmt on the body
returns the nil next-statement pointer, and interpretCall dereferences
it (`result.Type`), a panic.  End to end on
`fun f(q) { var y = 1; } f(1);`. -/
theorem claim5_no_return_panics :
    Lex (str (r"fun f(q) ") ++ [123] ++ str (r" var y = 1; ") ++ [125] ++
        str (r" f(1);")) = Res.ok ([newToken .Fun (str (r"fun")) 1, newToken .Identifier [102] 1,
    newToken .LeftParen [40] 1, newToken .Identifier [113] 1,
    newToken .RightParen [41] 1, newToken .LeftBrace [123] 1,
    newToken .Var (str (r"var")) 1, newToken .Identifier [121] 1,
    newToken .Equal [61] 1, newToken .Number [49] 1,
    newToken .Semicolon [59] 1, newToken .RightBrace [125] 1,
    newToken .Identifier [102] 1, newToken .LeftParen [40] 1,
    newToken .Number [49] 1, newToken .RightParen [41] 1,
    newToken .Semicolon [59] 1, newToken .EOF [0] 1], none) ∧
      Parse 50 [newToken .Fun (str (r"fun")) 1, newToken .Identifier [102] 1,
    newToken .LeftParen [40] 1, newToken .Identifier [113] 1,
    newToken .RightParen [41] 1, newToken .LeftBrace [123] 1,
    newToken .Var (str (r"var")) 1, newToken .Identifier [121] 1,
    newToken .Equal [61] 1, newToken .Number [49] 1,
    newToken .Semicolon [59] 1, newToken .RightBrace [125] 1,
    newToken .Identifier [102] 1, newToken .LeftParen [40] 1,
    newToken .Number [49] 1, newToken .RightParen [41] 1,
    newToken .Semicolon [59] 1, newToken .EOF [0] 1] =
        Res.ok (.mk .ProgramNT [] .null
          (.mk .FunDeclNT [63, 128, 0, 0]
            (.mk .IdentifierNT [102] .null .null .null .null)
            (.mk .ParamNT [113] .null .null .null .null)
            (.mk .BlockNT [] .null
              (.mk .VarDeclNT []
                (.mk .IdentifierNT [121] .null .null .null .null)
                (.mk .NumberNT [63, 128, 0, 0] .null .null .null .null)
                .null .null)
              .null .null)
            (.mk .ExprStmtNT [] .null
              (.mk .CallNT [63, 128, 0, 0]
                (.mk .IdentifierNT [102] .null .null .null .null)
                (.mk .NumberNT [63, 128, 0, 0] .null .null .null .null)
                .null .null)
              .null .null))
          .null .null, none, 18) ∧
      Interpret 50 (.mk .ProgramNT [] .null
          (.mk .FunDeclNT [63, 128, 0, 0]
            (.mk .IdentifierNT [102] .null .null .null .null)
            (.mk .ParamNT [113] .null .null .null .null)
            (.mk .BlockNT [] .null
              (.mk .VarDeclNT []
                (.mk .IdentifierNT [121] .null .null .null .null)
                (.mk .NumberNT [63, 128, 0, 0] .null .null .null .null)
                .null .null)
              .null .null)
            (.mk .ExprStmtNT [] .null
              (.mk .CallNT [63, 128, 0, 0]
                (.mk .IdentifierNT [102] .null .null .null .null)
                (.mk .NumberNT [63, 128, 0, 0] .null .null .null .null)
                .null .null)
              .null .null))
          .null .null) = Res.panic :=
  ⟨rfl, by decide, by decide⟩

/-- C10: argument expressions are evaluated in the new function
environment.  First conjunct, the general step: when an argument is an
identifier bound in the function frame itself (as every earlier
parameter is by the time the later argument is evaluated), the value
bound to the current parameter is the one from the function frame,
whatever any outer (caller) frame binds the name to.  Second conjunct,
end to end: calling f(v, a) against caller binding a = w, with
f(a, b) returning b, yields v, not the caller value w. -/
theorem claim10_args_eval_in_callee_env :
    (∀ (fuel : Nat) (f : Frame) (rest : List Frame) (errs : List RtErr)
        (name : Bytes) (u : Node) (idl idr idt idn : Node) (pdata : Value) (pl pr pt pnext : Node)
        (hu : frameGet f name = some u) (hnn : u ≠ Node.null),
      bindArgs (fuel + 3) ⟨f :: rest, errs⟩
          (.mk .IdentifierNT name idl idr idt idn) (.mk .ParamNT pdata pl pr pt pnext) =
        bindArgs (fuel + 2) ⟨frameSet f pdata u :: rest, errs⟩ idn pnext) ∧
    (∀ (v w : Value),
      interpretExpr 20
          ⟨[[([97], .mk .NumberNT w .null .null .null .null),
             ([102], .mk .FunctionNT (encodeLoxNumber 2)
               (.mk .ParamNT [97] .null .null .null
                 (.mk .ParamNT [98] .null .null .null .null))
               (.mk .BlockNT [] .null
                 (.mk .ReturnStmtNT [] .null
                   (.mk .IdentifierNT [98] .null .null .null .null) .null .null)
                 .null .null)
               .null .null)]], []⟩
          (.mk .CallNT (encodeLoxNumber 2)
            (.mk .IdentifierNT [102] .null .null .null .null)
            (.mk .NumberNT v .null .null .null
              (.mk .IdentifierNT [97] .null .null .null .null))
            .null .null) =
        Res.ok (.mk .NumberNT v .null .null .null
            (.mk .IdentifierNT [97] .null .null .null .null),
          ⟨[[([97], .mk .NumberNT w .null .null .null .null),
             ([102], .mk .FunctionNT (encodeLoxNumber 2)
               (.mk .ParamNT [97] .null .null .null
                 (.mk .ParamNT [98] .null .null .null .null))
               (.mk .BlockNT [] .null
                 (.mk .ReturnStmtNT [] .null
                   (.mk .IdentifierNT [98] .null .null .null .null) .null .null)
                 .null .null)
               .null .null)]], []⟩)) := by
  constructor
  · intro fuel f rest errs name u idl idr idt idn pdata pl pr pt pnext hu hnn
    simp [bindArgs, interpretExpr, interpretIdentifier, chainGet, hu, hnn, Res.bind,
      Node.toStr]
  · intro v w
    rfl

/-- Witness for C10 at a one-entry function frame and concrete nodes. -/
theorem claim10_args_eval_in_callee_env_witness :
    bindArgs 3 ⟨[[([97], .mk .NumberNT [63, 128, 0, 0] .null .null .null .null)],
        [([97], .mk .NumberNT [64, 0, 0, 0] .null .null .null .null)]], []⟩
        (.mk .IdentifierNT [97] .null .null .null .null)
        (.mk .ParamNT [98] .null .null .null .null) =
      bindArgs 2 ⟨[[([97], .mk .NumberNT [63, 128, 0, 0] .null .null .null .null),
          ([98], .mk .NumberNT [63, 128, 0, 0] .null .null .null .null)],
        [([97], .mk .NumberNT [64, 0, 0, 0] .null .null .null .null)]], []⟩
        .null .null :=
  claim10_args_eval_in_callee_env.1 0
    [([97], .mk .NumberNT [63, 128, 0, 0] .null .null .null .null)]
    [[([97], .mk .NumberNT [64, 0, 0, 0] .null .null .null .null)]] []
    [97] (.mk .NumberNT [63, 128, 0, 0] .null .null .null .null)
    .null .null .null .null [98] .null .null .null .null rfl (by decide)

end Golox
